import Mathlib

/-!
Shallow embedding of the moysklad-autoproduction demand processor.

The Rust source is embedded as executable Lean definitions:
  * `src/models/moysklad.rs`   — data model (only the fields the processor reads)
  * `src/api/moysklad.rs`      — the MoyskladClient operations, with the remote
    backend abstracted as a `Backend` of response oracles and every remote call
    recorded as an `Effect` in an explicit trace
  * `src/processing/processor.rs` — the DemandProcessor workflow, with the
    `&mut self` caches carried in an explicit `PState`.

Rust `f64` amounts are modelled as `Rat`; fallible operations return
`Except String`; `Vec::pop()` on a response collection is `List.getLast?`.
-/

namespace MS

/-- `meta` of an entity: we keep the `href` field, the only one the processor reads. -/
structure Meta where
  href : String
  deriving DecidableEq, Repr

/-- Reference to an entity (models/moysklad.rs `EntityRef`). -/
structure EntityRef where
  meta : Meta
  id : Option String
  name : Option String
  deriving DecidableEq, Repr

/-- Attribute value (models/moysklad.rs `AttributeValue`, untagged union). -/
inductive AttributeValue where
  | Str (s : String)
  | Num (n : Rat)
  | Boolean (b : Bool)
  | ERef (e : EntityRef)
  deriving DecidableEq, Repr

/-- Custom attribute of a product (models/moysklad.rs `Attribute`). -/
structure Attribute where
  id : String
  name : String
  attrType : String
  value : Option AttributeValue
  deriving DecidableEq, Repr

/-- `Attribute::as_string`: render the attribute value as a string, if present. -/
def Attribute.as_string (a : Attribute) : Option String :=
  match a.value with
  | some (AttributeValue.Str s) => some s
  | some (AttributeValue.Num n) => some (toString n)
  | some (AttributeValue.Boolean b) => some (toString b)
  | some (AttributeValue.ERef e) => e.name
  | none => none

/-- Product with attributes (models/moysklad.rs `Product`). -/
structure Product where
  id : String
  name : String
  attributes : Option (List Attribute)
  deriving DecidableEq, Repr

/-- Per-store stock entry of a stock-report row (models/moysklad.rs `StoreStockInfo`). -/
structure StoreStockInfo where
  meta : Meta
  name : String
  stock : Rat
  reserve : Rat
  in_transit : Rat
  deriving DecidableEq, Repr

/-- Row of the by-store stock report (models/moysklad.rs `StockByStoreRow`). -/
structure StockByStoreRow where
  meta : Meta
  stock_by_store : Option (List StoreStockInfo)
  deriving DecidableEq, Repr

/-- Material of a processing plan (models/moysklad.rs `ProcessingPlanMaterial`). -/
structure ProcessingPlanMaterial where
  product : EntityRef
  quantity : Rat
  deriving DecidableEq, Repr

/-- Expanded materials of a plan (models/moysklad.rs `ProcessingPlanMaterialsExpanded`). -/
structure ProcessingPlanMaterialsExpanded where
  rows : Option (List ProcessingPlanMaterial)
  deriving DecidableEq, Repr

/-- Tech card / processing plan (models/moysklad.rs `ProcessingPlan`). -/
structure ProcessingPlan where
  meta : Meta
  id : String
  name : String
  materials : Option ProcessingPlanMaterialsExpanded
  deriving DecidableEq, Repr

/-- Processing operation returned by the backend (models/moysklad.rs `Processing`). -/
structure Processing where
  id : String
  name : String
  deriving DecidableEq, Repr

/-- Line item of a demand (models/moysklad.rs `DemandPosition`). -/
structure DemandPosition where
  assortment : EntityRef
  quantity : Rat
  deriving DecidableEq, Repr

/-- Positions collection of a demand (models/moysklad.rs `DemandPositions`). -/
structure DemandPositions where
  rows : List DemandPosition
  deriving DecidableEq, Repr

/-- Shipment document (models/moysklad.rs `Demand`). -/
structure Demand where
  id : String
  name : String
  moment : String
  applicable : Bool
  store : EntityRef
  positions : Option DemandPositions
  deriving DecidableEq, Repr

/-- Webhook content (models/moysklad.rs `WebhookContent`). -/
structure WebhookContent where
  entity : Option Demand
  id : Option String
  deriving DecidableEq, Repr

/-- Webhook event (models/moysklad.rs `WebhookEvent`). -/
structure WebhookEvent where
  entity_type : String
  action : String
  entity : Option Demand
  content : Option WebhookContent
  deriving DecidableEq, Repr

/-- Request body for creating a processing operation
(models/moysklad.rs `CreateProcessingRequest`; the `meta`-wrapper refs are kept as `Meta`). -/
structure CreateProcessingRequest where
  processing_plan : Meta
  store : Meta
  products_store : Meta
  organization : Meta
  quantity : Rat
  name : Option String
  description : Option String
  processing_sum : Rat
  deriving DecidableEq, Repr

/-- Product snapshot of a result (models/moysklad.rs `ProductInfo`). -/
structure ProductInfo where
  id : String
  name : String
  quantity : Rat
  stock_before : Rat
  deriving DecidableEq, Repr

/-- Per-line processing result (models/moysklad.rs `ProcessingResult`). -/
structure ProcessingResult where
  success : Bool
  message : String
  demand_id : Option String
  demand_name : Option String
  processing_id : Option String
  processing_name : Option String
  product : Option ProductInfo
  error : Option String
  deriving DecidableEq, Repr

/-- Settings read by the processor (config/settings.rs `Settings`). -/
structure Settings where
  store_name : String
  tech_card_field_name : String
  min_stock_threshold : Rat
  deriving DecidableEq, Repr

/-- One remote API call, recorded in the trace. -/
inductive Effect where
  | findStore (name : String)
  | getStock (productId storeId : String)
  | getProduct (productId : String)
  | findPlan (name : String)
  | createProcessing
  | applyProcessing (processingId : String)
  | getOrganization
  | getDemand (demandId : String)
  deriving DecidableEq, Repr

/-- The remote backend, abstracted as response oracles for each endpoint.
A `.error` response models an HTTP/transport failure of that call;
`Option (List _)` mirrors the optional `rows` field of `ApiResponse`. -/
structure Backend where
  findStoreResp : String → Except String (Option (List EntityRef))
  stockResp : Except String (Option (List StockByStoreRow))
  getProductResp : String → Except String Product
  findPlanResp : String → Except String (Option (List ProcessingPlan))
  getOrgResp : Except String (Option (List EntityRef))
  createResp : CreateProcessingRequest → Except String Processing
  applyResp : String → Except String Processing
  getDemandResp : String → Except String Demand

/-- Processor state: the two `&mut self` caches plus the trace of remote calls made. -/
structure PState where
  storeCache : Option EntityRef
  organizationCache : Option EntityRef
  trace : List Effect
  deriving Repr

/-- The final slash-separated segment of a character list: the accumulator is
reset at each slash. -/
def lastSegAux (cur : List Char) : List Char → List Char
  | [] => cur
  | c :: rest => if c = '/' then lastSegAux [] rest else lastSegAux (cur ++ [c]) rest

/-- Rust `s.rsplit('/').next()`: the final slash-separated segment of a href.
`rsplit` always yields at least one piece, so this is always `some`. -/
def rsplitNext (s : String) : Option String :=
  some (String.mk (lastSegAux [] s.data))

/-- Final path segment with a default (Rust `rsplit('/').next().unwrap_or(d)`). -/
def lastSegD (s d : String) : String :=
  (rsplitNext s).getD d

/-- `MoyskladClient::find_store_by_name`: filter search; `rows.pop()` takes the
last element of the returned collection. -/
def find_store_by_name (b : Backend) (st : PState) (name : String) :
    PState × Except String (Option EntityRef) :=
  let st1 := { st with trace := st.trace ++ [Effect.findStore name] }
  match b.findStoreResp name with
  | Except.error e => (st1, Except.error e)
  | Except.ok rows => (st1, Except.ok (Option.bind rows List.getLast?))

/-- Inner loop of `get_product_stock`: first store entry of a row whose
href-derived id matches, returning `stock - reserve`. -/
def stockScanStores (sid : String) : List StoreStockInfo → Option Rat
  | [] => none
  | ss :: rest =>
    if lastSegD ss.meta.href "" = sid then some (ss.stock - ss.reserve)
    else stockScanStores sid rest

/-- Outer loop of `get_product_stock`: scan rows in order; on a product match,
return the matching store entry if present, otherwise keep scanning. -/
def stockScanRows (pid sid : String) : List StockByStoreRow → Rat
  | [] => 0
  | row :: rest =>
    if lastSegD row.meta.href "" = pid then
      match row.stock_by_store with
      | some stocks =>
        match stockScanStores sid stocks with
        | some v => v
        | none => stockScanRows pid sid rest
      | none => stockScanRows pid sid rest
    else stockScanRows pid sid rest

/-- The pure scan of a stock report (absent `rows` yields 0). -/
def stockScan (rowsOpt : Option (List StockByStoreRow)) (pid sid : String) : Rat :=
  match rowsOpt with
  | some rows => stockScanRows pid sid rows
  | none => 0

/-- `MoyskladClient::get_product_stock`: fetch the by-store report and scan it. -/
def get_product_stock (b : Backend) (st : PState) (pid sid : String) :
    PState × Except String Rat :=
  let st1 := { st with trace := st.trace ++ [Effect.getStock pid sid] }
  match b.stockResp with
  | Except.error e => (st1, Except.error e)
  | Except.ok rowsOpt => (st1, Except.ok (stockScan rowsOpt pid sid))

/-- `MoyskladClient::get_product`: fetch a product with attributes. -/
def get_product (b : Backend) (st : PState) (pid : String) :
    PState × Except String Product :=
  let st1 := { st with trace := st.trace ++ [Effect.getProduct pid] }
  (st1, b.getProductResp pid)

/-- `MoyskladClient::find_processing_plan_by_name`: filter search; `rows.pop()`
takes the last element of the returned collection. -/
def find_processing_plan_by_name (b : Backend) (st : PState) (name : String) :
    PState × Except String (Option ProcessingPlan) :=
  let st1 := { st with trace := st.trace ++ [Effect.findPlan name] }
  match b.findPlanResp name with
  | Except.error e => (st1, Except.error e)
  | Except.ok rows => (st1, Except.ok (Option.bind rows List.getLast?))

/-- `MoyskladClient::create_processing`. -/
def create_processing (b : Backend) (st : PState) (req : CreateProcessingRequest) :
    PState × Except String Processing :=
  let st1 := { st with trace := st.trace ++ [Effect.createProcessing] }
  (st1, b.createResp req)

/-- `MoyskladClient::apply_processing`. -/
def apply_processing (b : Backend) (st : PState) (pid : String) :
    PState × Except String Processing :=
  let st1 := { st with trace := st.trace ++ [Effect.applyProcessing pid] }
  (st1, b.applyResp pid)

/-- `MoyskladClient::get_organization`: `rows.pop()` takes the last element. -/
def get_organization_remote (b : Backend) (st : PState) :
    PState × Except String (Option EntityRef) :=
  let st1 := { st with trace := st.trace ++ [Effect.getOrganization] }
  match b.getOrgResp with
  | Except.error e => (st1, Except.error e)
  | Except.ok rows => (st1, Except.ok (Option.bind rows List.getLast?))

/-- `MoyskladClient::get_demand`: fetch a demand by id (declared on the client,
used by the processor to resolve a webhook that carries only an id). -/
def get_demand (b : Backend) (st : PState) (id : String) :
    PState × Except String Demand :=
  let st1 := { st with trace := st.trace ++ [Effect.getDemand id] }
  (st1, b.getDemandResp id)

/-- `DemandProcessor::get_store`: lazily cached warehouse resolution. -/
def get_store (b : Backend) (settings : Settings) (st : PState) :
    PState × Except String EntityRef :=
  match st.storeCache with
  | some store => (st, Except.ok store)
  | none =>
    match find_store_by_name b st settings.store_name with
    | (st1, Except.error e) => (st1, Except.error e)
    | (st1, Except.ok none) =>
      (st1, Except.error ("Store not found: " ++ settings.store_name))
    | (st1, Except.ok (some store)) =>
      ({ st1 with storeCache := some store }, Except.ok store)

/-- `DemandProcessor::get_organization`: lazily cached organization resolution. -/
def get_organization (b : Backend) (st : PState) :
    PState × Except String EntityRef :=
  match st.organizationCache with
  | some org => (st, Except.ok org)
  | none =>
    match get_organization_remote b st with
    | (st1, Except.error e) => (st1, Except.error e)
    | (st1, Except.ok none) => (st1, Except.error "No organization found")
    | (st1, Except.ok (some org)) =>
      ({ st1 with organizationCache := some org }, Except.ok org)

/-- Loop of `find_tech_card_name`: first attribute whose name matches the
configured field and whose value renders as a string. -/
def findTechCardLoop (field : String) : List Attribute → String
  | [] => ""
  | attr :: rest =>
    if attr.name = field then
      match attr.as_string with
      | some v => v
      | none => findTechCardLoop field rest
    else findTechCardLoop field rest

/-- `DemandProcessor::find_tech_card_name`: the configured BOM-name attribute,
or the empty string when absent (the Rust `Result` is always `Ok`). -/
def find_tech_card_name (settings : Settings) (product : Product) : String :=
  match product.attributes with
  | none => ""
  | some attrs => findTechCardLoop settings.tech_card_field_name attrs

/-- Result of the materials check (processor.rs `MaterialsCheckResult`). -/
structure MaterialsCheckResult where
  available : Bool
  missing : List (String × Rat)
  deriving DecidableEq, Repr

/-- `MaterialsCheckResult::available()`. -/
def MaterialsCheckResult.mkAvailable : MaterialsCheckResult :=
  { available := true, missing := [] }

/-- `MaterialsCheckResult::missing(missing)`. -/
def MaterialsCheckResult.mkMissing (m : List (String × Rat)) : MaterialsCheckResult :=
  { available := false, missing := m }

/-- Loop of `check_materials_availability`: one stock lookup per material,
accumulating `(name, required - stock)` for each short material. -/
def check_materials_loop (b : Backend) (sid : String) (quantity : Rat) :
    List ProcessingPlanMaterial → List (String × Rat) → PState →
    PState × Except String (List (String × Rat))
  | [], acc, st => (st, Except.ok acc)
  | m :: rest, acc, st =>
    let material_qty := m.quantity * quantity
    let material_id := lastSegD m.product.meta.href ""
    match get_product_stock b st material_id sid with
    | (st1, Except.error e) => (st1, Except.error e)
    | (st1, Except.ok stock) =>
      let material_name := m.product.name.getD "unknown"
      let acc2 := if stock < material_qty
        then acc ++ [(material_name, material_qty - stock)] else acc
      check_materials_loop b sid quantity rest acc2 st1

/-- `DemandProcessor::check_materials_availability`. -/
def check_materials_availability (b : Backend) (plan : ProcessingPlan)
    (quantity : Rat) (sid : String) (st : PState) :
    PState × Except String MaterialsCheckResult :=
  match plan.materials with
  | none => (st, Except.ok MaterialsCheckResult.mkAvailable)
  | some me =>
    match me.rows with
    | none => (st, Except.ok MaterialsCheckResult.mkAvailable)
    | some materials =>
      match check_materials_loop b sid quantity materials [] st with
      | (st1, Except.error e) => (st1, Except.error e)
      | (st1, Except.ok missing) =>
        (st1, Except.ok (if missing.isEmpty then MaterialsCheckResult.mkAvailable
          else MaterialsCheckResult.mkMissing missing))

/-- `DemandProcessor::create_processing_operation`: build the request and post it. -/
def create_processing_operation (b : Backend) (st : PState)
    (plan : ProcessingPlan) (store organization : EntityRef) (quantity : Rat)
    (demand : Demand) (product_name : String) : PState × Except String Processing :=
  let request : CreateProcessingRequest :=
    { processing_plan := plan.meta
      store := store.meta
      products_store := store.meta
      organization := organization.meta
      quantity := quantity
      name := none
      description := some ("Автоматически создано для отгрузки " ++ demand.name
        ++ " от " ++ demand.moment)
      processing_sum := 0 }
  create_processing b st request

/-- `DemandProcessor::extract_product_info_from_position`: best-effort snapshot
from the line itself, stock defaulted to 0. -/
def extract_product_info_from_position (position : DemandPosition) : ProductInfo :=
  { id := (rsplitNext position.assortment.meta.href).getD "unknown"
    name := position.assortment.name.getD "unknown"
    quantity := position.quantity
    stock_before := 0 }

/-- Render the shortfall list of a failed materials check, as in processor.rs. -/
def formatMissing (missing : List (String × Rat)) : String :=
  String.intercalate ", "
    (missing.map (fun p => p.1 ++ ": нужно " ++ toString p.2 ++ ", нет в наличии"))

/-- `DemandProcessor::process_position`: the per-line decision tree. -/
def process_position (b : Backend) (settings : Settings) (demand : Demand)
    (position : DemandPosition) (st : PState) : PState × Except String ProcessingResult :=
  match rsplitNext position.assortment.meta.href with
  | none => (st, Except.error "Cannot extract product ID from assortment href")
  | some product_id =>
    let product_name := position.assortment.name.getD "unknown"
    let quantity := position.quantity
    match get_store b settings st with
    | (st1, Except.error e) => (st1, Except.error e)
    | (st1, Except.ok store) =>
      match store.id with
      | none => (st1, Except.error "Store ID missing")
      | some store_id =>
        match get_product_stock b st1 product_id store_id with
        | (st2, Except.error e) => (st2, Except.error e)
        | (st2, Except.ok current_stock) =>
          if current_stock ≥ settings.min_stock_threshold then
            (st2, Except.ok
              { success := true
                message := "Остаток достаточен (" ++ toString current_stock
                  ++ " >= " ++ toString settings.min_stock_threshold ++ ")"
                demand_id := some demand.id
                demand_name := some demand.name
                processing_id := none
                processing_name := none
                product := some ⟨product_id, product_name, quantity, current_stock⟩
                error := none })
          else
            match get_product b st2 product_id with
            | (st3, Except.error e) => (st3, Except.error e)
            | (st3, Except.ok product) =>
              let tech_card_name := find_tech_card_name settings product
              if tech_card_name.isEmpty then
                (st3, Except.ok
                  { success := false
                    message := "Тех. карта не найдена в карточке товара"
                    demand_id := some demand.id
                    demand_name := some demand.name
                    processing_id := none
                    processing_name := none
                    product := some ⟨product_id, product_name, quantity, current_stock⟩
                    error := some "Тех. карта не найдена" })
              else
                match find_processing_plan_by_name b st3 tech_card_name with
                | (st4, Except.error e) => (st4, Except.error e)
                | (st4, Except.ok none) =>
                  (st4, Except.error ("Processing plan not found: " ++ tech_card_name))
                | (st4, Except.ok (some processing_plan)) =>
                  match check_materials_availability b processing_plan quantity store_id st4 with
                  | (st5, Except.error e) => (st5, Except.error e)
                  | (st5, Except.ok materials_check) =>
                    if !materials_check.available then
                      (st5, Except.ok
                        { success := false
                          message := "Недостаточно материалов: "
                            ++ formatMissing materials_check.missing
                          demand_id := some demand.id
                          demand_name := some demand.name
                          processing_id := none
                          processing_name := none
                          product := some ⟨product_id, product_name, quantity, current_stock⟩
                          error := some ("Недостаточно материалов: "
                            ++ formatMissing materials_check.missing) })
                    else
                      match get_organization b st5 with
                      | (st6, Except.error e) => (st6, Except.error e)
                      | (st6, Except.ok organization) =>
                        match create_processing_operation b st6 processing_plan store
                          organization quantity demand product_name with
                        | (st7, Except.error e) => (st7, Except.error e)
                        | (st7, Except.ok processing) =>
                          match apply_processing b st7 processing.id with
                          | (st8, Except.error e) => (st8, Except.error e)
                          | (st8, Except.ok applied_processing) =>
                            (st8, Except.ok
                              { success := true
                                message := "Создана тех. операция для производства "
                                  ++ toString quantity ++ " шт. " ++ product_name
                                demand_id := some demand.id
                                demand_name := some demand.name
                                processing_id := some applied_processing.id
                                processing_name := some applied_processing.name
                                product := some ⟨product_id, product_name, quantity, current_stock⟩
                                error := none })

/-- The `success:false` entry built when a line raises a hard error
(`process_demand_positions`, `Err` arm). -/
def lineErrorResult (demand : Demand) (position : DemandPosition) (e : String) :
    ProcessingResult :=
  { success := false
    message := "Ошибка обработки позиции: " ++ e
    demand_id := some demand.id
    demand_name := some demand.name
    processing_id := none
    processing_name := none
    product := some (extract_product_info_from_position position)
    error := some e }

/-- Loop of `process_demand_positions`: process each line, converting a per-line
error into a `success:false` entry and continuing. -/
def positions_loop (b : Backend) (settings : Settings) (demand : Demand) :
    List DemandPosition → List ProcessingResult → PState →
    PState × Except String (List ProcessingResult)
  | [], results, st => (st, Except.ok results)
  | position :: rest, results, st =>
    match process_position b settings demand position st with
    | (st1, Except.ok result) =>
      positions_loop b settings demand rest (results ++ [result]) st1
    | (st1, Except.error e) =>
      positions_loop b settings demand rest
        (results ++ [lineErrorResult demand position e]) st1

/-- `DemandProcessor::process_demand_positions`. -/
def process_demand_positions (b : Backend) (settings : Settings) (demand : Demand)
    (st : PState) : PState × Except String (List ProcessingResult) :=
  match demand.positions with
  | none => (st, Except.ok [])
  | some p => positions_loop b settings demand p.rows [] st

/-- The single skip result for an unconfirmed demand. -/
def notApplicableResult (demand : Demand) : ProcessingResult :=
  { success := true
    message := "Отгрузка не проведена, пропускаем"
    demand_id := some demand.id
    demand_name := some demand.name
    processing_id := none
    processing_name := none
    product := none
    error := none }

/-- The single skip result for a demand at a different warehouse. -/
def otherStoreResult (demand : Demand) : ProcessingResult :=
  { success := true
    message := "Отгрузка с другого склада"
    demand_id := some demand.id
    demand_name := some demand.name
    processing_id := none
    processing_name := none
    product := none
    error := none }

/-- Demand-resolution step of `process_webhook`: inline entity, else fetch by
the content id, else a hard error. -/
def resolve_demand (b : Backend) (event : WebhookEvent) (st : PState) :
    PState × Except String Demand :=
  match event.entity with
  | some demand => (st, Except.ok demand)
  | none =>
    match event.content with
    | some content =>
      match content.id with
      | some id => get_demand b st id
      | none => (st, Except.error "No demand ID in webhook content")
    | none => (st, Except.error "No demand data in webhook event")

/-- `DemandProcessor::process_webhook`. -/
def process_webhook (b : Backend) (settings : Settings) (event : WebhookEvent)
    (st : PState) : PState × Except String (List ProcessingResult) :=
  if event.entity_type ≠ "demand" then (st, Except.ok [])
  else
    match resolve_demand b event st with
    | (st1, Except.error e) => (st1, Except.error e)
    | (st1, Except.ok demand) =>
      if !demand.applicable then
        (st1, Except.ok [notApplicableResult demand])
      else
        match get_store b settings st1 with
        | (st2, Except.error e) => (st2, Except.error e)
        | (st2, Except.ok store) =>
          match demand.store.id with
          | none => (st2, Except.error "Store ID missing")
          | some demand_store_id =>
            match store.id with
            | none => (st2, Except.error "Cached store ID missing")
            | some cached_store_id =>
              if demand_store_id ≠ cached_store_id then
                (st2, Except.ok [otherStoreResult demand])
              else
                process_demand_positions b settings demand st2

/-! ### Pure reference functions used to state the claims -/

/-- Materials list of a plan: absent `materials` or absent `rows` yield `[]`. -/
def planMaterials (plan : ProcessingPlan) : List ProcessingPlanMaterial :=
  match plan.materials with
  | none => []
  | some me => me.rows.getD []

/-- The shortfall list exactly as the code loop accumulates it:
one `(name, required - stock)` entry per material with `stock < required`. -/
def codeShortfalls (rowsOpt : Option (List StockByStoreRow)) (sid : String) (q : Rat) :
    List ProcessingPlanMaterial → List (String × Rat)
  | [] => []
  | m :: rest =>
    let req := m.quantity * q
    let stock := stockScan rowsOpt (lastSegD m.product.meta.href "") sid
    (if stock < req then [(m.product.name.getD "unknown", req - stock)] else [])
      ++ codeShortfalls rowsOpt sid q rest

/-- The shortfall list in the claim's shape: for each material,
`missing = max 0 (required - available)`, kept iff `missing > 0`. -/
def claimShortfalls (rowsOpt : Option (List StockByStoreRow)) (sid : String) (q : Rat)
    (ms : List ProcessingPlanMaterial) : List (String × Rat) :=
  ms.filterMap (fun m =>
    let miss := max 0 (m.quantity * q - stockScan rowsOpt (lastSegD m.product.meta.href "") sid)
    if 0 < miss then some (m.product.name.getD "unknown", miss) else none)

/-- The stock-lookup effects issued by a materials check, one per material in order. -/
def materialStockEffects (sid : String) (ms : List ProcessingPlanMaterial) : List Effect :=
  ms.map (fun m => Effect.getStock (lastSegD m.product.meta.href "") sid)

/-- First stock-report row whose href-derived product id matches. -/
def firstMatchingRow (pid : String) (rows : List StockByStoreRow) : Option StockByStoreRow :=
  rows.find? (fun row => lastSegD row.meta.href "" = pid)

/-- First per-store entry of a row whose href-derived store id matches. -/
def firstMatchingEntry (sid : String) (stocks : List StoreStockInfo) : Option StoreStockInfo :=
  stocks.find? (fun ss => lastSegD ss.meta.href "" = sid)

/-- Whether some row matches the product and contains an entry matching the store. -/
def pairExists (pid sid : String) (rows : List StockByStoreRow) : Bool :=
  rows.any (fun row =>
    decide (lastSegD row.meta.href "" = pid)
      && (row.stock_by_store.getD []).any (fun ss => decide (lastSegD ss.meta.href "" = sid)))

/-! ### Helper lemmas -/

theorem stockScanStores_eq_find (sid : String) (stocks : List StoreStockInfo) :
    stockScanStores sid stocks =
      (firstMatchingEntry sid stocks).map (fun e => e.stock - e.reserve) := by
  induction stocks with
  | nil => simp [stockScanStores, firstMatchingEntry]
  | cons ss rest ih =>
    by_cases h : lastSegD ss.meta.href "" = sid
    · simp [stockScanStores, firstMatchingEntry, List.find?, h]
    · simpa [stockScanStores, firstMatchingEntry, List.find?, h] using ih

theorem stockScanRows_first (pid sid : String) (rows : List StockByStoreRow)
    (row : StockByStoreRow) (entry : StoreStockInfo)
    (hrow : firstMatchingRow pid rows = some row)
    (hentry : firstMatchingEntry sid (row.stock_by_store.getD []) = some entry) :
    stockScanRows pid sid rows = entry.stock - entry.reserve := by
  induction rows with
  | nil => simp [firstMatchingRow] at hrow
  | cons r rest ih =>
    by_cases h : lastSegD r.meta.href "" = pid
    · have hr : r = row := by
        simpa [firstMatchingRow, List.find?, h] using hrow
      subst hr
      cases hsbs : r.stock_by_store with
      | none => simp [hsbs] at hentry; simp [firstMatchingEntry] at hentry
      | some stocks =>
        have : firstMatchingEntry sid stocks = some entry := by
          simpa [hsbs] using hentry
        simp [stockScanRows, h, hsbs, stockScanStores_eq_find, this]
    · have hrest : firstMatchingRow pid rest = some row := by
        simpa [firstMatchingRow, List.find?, h] using hrow
      simpa [stockScanRows, h] using ih hrest

theorem stockScanRows_none (pid sid : String) (rows : List StockByStoreRow)
    (h : pairExists pid sid rows = false) :
    stockScanRows pid sid rows = 0 := by
  induction rows with
  | nil => simp [stockScanRows]
  | cons r rest ih =>
    simp only [pairExists, List.any_cons, Bool.or_eq_false_iff,
      Bool.and_eq_false_iff] at h
    obtain ⟨h1, h2⟩ := h
    have hrest : pairExists pid sid rest = false := h2
    by_cases hp : lastSegD r.meta.href "" = pid
    · cases hsbs : r.stock_by_store with
      | none => simpa [stockScanRows, hp, hsbs] using ih hrest
      | some stocks =>
        have hnone : stockScanStores sid stocks = none := by
          rw [stockScanStores_eq_find]
          have : firstMatchingEntry sid stocks = none := by
            rcases h1 with h1 | h1
            · simp [hp] at h1
            · have hall : ∀ ss ∈ stocks, ¬ lastSegD ss.meta.href "" = sid := by
                simpa [hsbs] using h1
              rw [firstMatchingEntry, List.find?_eq_none]
              intro ss hss
              simpa using hall ss hss
          simp [this]
        simpa [stockScanRows, hp, hsbs, hnone] using ih hrest
    · simpa [stockScanRows, hp] using ih hrest

theorem get_product_stock_eq (b : Backend) (st : PState) (pid sid : String)
    (rowsOpt : Option (List StockByStoreRow)) (hstk : b.stockResp = Except.ok rowsOpt) :
    get_product_stock b st pid sid =
      ({ st with trace := st.trace ++ [Effect.getStock pid sid] },
       Except.ok (stockScan rowsOpt pid sid)) := by
  simp [get_product_stock, hstk]

theorem check_materials_loop_eq (b : Backend) (sid : String) (q : Rat)
    (rowsOpt : Option (List StockByStoreRow)) (hstk : b.stockResp = Except.ok rowsOpt) :
    ∀ (ms : List ProcessingPlanMaterial) (acc : List (String × Rat)) (st : PState),
    check_materials_loop b sid q ms acc st =
      ({ st with trace := st.trace ++ materialStockEffects sid ms },
       Except.ok (acc ++ codeShortfalls rowsOpt sid q ms)) := by
  intro ms
  induction ms with
  | nil =>
    intro acc st
    simp [check_materials_loop, materialStockEffects, codeShortfalls]
  | cons m rest ih =>
    intro acc st
    rw [check_materials_loop,
      get_product_stock_eq b st (lastSegD m.product.meta.href "") sid rowsOpt hstk]
    dsimp only
    rw [ih]
    by_cases hlt : stockScan rowsOpt (lastSegD m.product.meta.href "") sid < m.quantity * q
    · simp [hlt, materialStockEffects, codeShortfalls]
    · simp [hlt, materialStockEffects, codeShortfalls]

theorem check_materials_eq (b : Backend) (plan : ProcessingPlan) (q : Rat)
    (sid : String) (st : PState) (rowsOpt : Option (List StockByStoreRow))
    (hstk : b.stockResp = Except.ok rowsOpt) :
    check_materials_availability b plan q sid st =
      ({ st with trace := st.trace ++ materialStockEffects sid (planMaterials plan) },
       Except.ok
         { available := (codeShortfalls rowsOpt sid q (planMaterials plan)).isEmpty
           missing := codeShortfalls rowsOpt sid q (planMaterials plan) }) := by
  cases hm : plan.materials with
  | none =>
    simp [check_materials_availability, planMaterials, hm, materialStockEffects,
      codeShortfalls, MaterialsCheckResult.mkAvailable]
  | some me =>
    cases hr : me.rows with
    | none =>
      simp [check_materials_availability, planMaterials, hm, hr, materialStockEffects,
        codeShortfalls, MaterialsCheckResult.mkAvailable]
    | some materials =>
      rw [check_materials_availability]
      simp only [hm, hr]
      rw [check_materials_loop_eq b sid q rowsOpt hstk materials [] st]
      simp only [List.nil_append, planMaterials, hm, hr, Option.getD_some]
      by_cases he : codeShortfalls rowsOpt sid q materials = []
      · simp [he, MaterialsCheckResult.mkAvailable]
      · simp [he, MaterialsCheckResult.mkMissing,
          List.isEmpty_eq_false_iff_exists_mem.mpr
            (List.exists_mem_of_ne_nil _ he)]

theorem codeShortfalls_eq_claim (rowsOpt : Option (List StockByStoreRow))
    (sid : String) (q : Rat) :
    ∀ ms : List ProcessingPlanMaterial,
    codeShortfalls rowsOpt sid q ms = claimShortfalls rowsOpt sid q ms := by
  intro ms
  induction ms with
  | nil => simp [codeShortfalls, claimShortfalls]
  | cons m rest ih =>
    simp only [codeShortfalls, claimShortfalls, List.filterMap_cons]
    by_cases hlt : stockScan rowsOpt (lastSegD m.product.meta.href "") sid < m.quantity * q
    · have hpos : 0 < m.quantity * q - stockScan rowsOpt (lastSegD m.product.meta.href "") sid :=
        sub_pos.mpr hlt
      have hmax : max 0 (m.quantity * q - stockScan rowsOpt (lastSegD m.product.meta.href "") sid)
          = m.quantity * q - stockScan rowsOpt (lastSegD m.product.meta.href "") sid :=
        max_eq_right hpos.le
      simpa [hlt, hmax, hpos, claimShortfalls] using ih
    · have hle : m.quantity * q - stockScan rowsOpt (lastSegD m.product.meta.href "") sid ≤ 0 :=
        sub_nonpos.mpr (not_lt.mp hlt)
      have hmax : max 0 (m.quantity * q - stockScan rowsOpt (lastSegD m.product.meta.href "") sid)
          = 0 := max_eq_left hle
      simpa [hlt, hmax, claimShortfalls] using ih

/-! ### Concrete sample data for witnesses and counterexamples -/

/-- Empty initial processor state. -/
def st0 : PState := { storeCache := none, organizationCache := none, trace := [] }

/-- A sample entity. -/
def eA : EntityRef := { meta := { href := "hrefA" }, id := some "idA", name := some "A" }

/-- Another sample entity, distinct from `eA`. -/
def eB : EntityRef := { meta := { href := "hrefB" }, id := some "idB", name := some "B" }

/-- A backend whose store search and organization listing both return `[eA, eB]`. -/
def bC6 : Backend :=
  { findStoreResp := fun _ => Except.ok (some [eA, eB])
    stockResp := Except.error "unused"
    getProductResp := fun _ => Except.error "unused"
    findPlanResp := fun _ => Except.error "unused"
    getOrgResp := Except.ok (some [eA, eB])
    createResp := fun _ => Except.error "unused"
    applyResp := fun _ => Except.error "unused"
    getDemandResp := fun _ => Except.error "unused" }

/-- A per-store stock entry for witnesses: store `s2`, stock 9, reserve 2. -/
def entryS2 : StoreStockInfo := { meta := { href := "s2" }, name := "S2", stock := 9, reserve := 2, in_transit := 0 }

/-- A per-store stock entry for witnesses: store `s1`, stock 5, reserve 1. -/
def entryS1 : StoreStockInfo := { meta := { href := "s1" }, name := "S1", stock := 5, reserve := 1, in_transit := 0 }

/-- A stock-report row: product `p`, store `s2` only. -/
def rowC8a : StockByStoreRow := { meta := { href := "p" }, stock_by_store := some [entryS2] }

/-- A stock-report row: product `p`, store `s1` with stock 5, reserve 1. -/
def rowC8b : StockByStoreRow := { meta := { href := "p" }, stock_by_store := some [entryS1] }

/-- Sample stock report: the `p` row with the `s1` entry comes first. -/
def rowsC8 : List StockByStoreRow := [rowC8b, rowC8a]

/-- Backend serving `rowsC8` as the stock report. -/
def bC8 : Backend :=
  { findStoreResp := fun _ => Except.error "unused"
    stockResp := Except.ok (some [rowC8b, rowC8a])
    getProductResp := fun _ => Except.error "unused"
    findPlanResp := fun _ => Except.error "unused"
    getOrgResp := Except.error "unused"
    createResp := fun _ => Except.error "unused"
    applyResp := fun _ => Except.error "unused"
    getDemandResp := fun _ => Except.error "unused" }

/-- Entity reference to the material `m1`. -/
def refM1 : EntityRef := { meta := { href := "m1" }, id := some "m1", name := some "M1" }

/-- A plan with a single material `m1` needing 2 per unit. -/
def planC2 : ProcessingPlan :=
  { meta := { href := "plan1" }
    id := "plan1"
    name := "Card1"
    materials := some { rows := some [{ product := refM1, quantity := 2 }] } }

/-- A per-store stock entry: store `s1`, stock 4, reserve 0. -/
def entryS1of4 : StoreStockInfo := { meta := { href := "s1" }, name := "S1", stock := 4, reserve := 0, in_transit := 0 }

/-- A stock report with material `m1` at store `s1`: stock 4, reserve 0. -/
def rowsC2 : List StockByStoreRow :=
  [{ meta := { href := "m1" }, stock_by_store := some [entryS1of4] }]

/-- Backend serving `rowsC2` as the stock report. -/
def bC2 : Backend :=
  { findStoreResp := fun _ => Except.error "unused"
    stockResp := Except.ok (some rowsC2)
    getProductResp := fun _ => Except.error "unused"
    findPlanResp := fun _ => Except.error "unused"
    getOrgResp := Except.error "unused"
    createResp := fun _ => Except.error "unused"
    applyResp := fun _ => Except.error "unused"
    getDemandResp := fun _ => Except.error "unused" }

/-! ### Claims -/

/-- C2: for every BOM and target quantity, the availability check computes, for
each material, `required = quantityPerUnit × targetQuantity` and
`missing = max 0 (required − available stock)`; a material appears in the
shortfall list iff its missing amount is positive; the result is available iff
the shortfall list is empty; and a BOM with no materials (absent materials
object or absent rows) is reported available with an empty shortfall list.
The returned record literally carries `available := shortfalls.isEmpty` and the
`claimShortfalls` list, which is the per-material `max 0 (required − stock)`
filter; `planMaterials` is `[]` when the materials object or its rows are
absent, making such a BOM trivially available. -/
theorem C2_materials_check (b : Backend) (st : PState) (plan : ProcessingPlan)
    (q : Rat) (sid : String) (rowsOpt : Option (List StockByStoreRow))
    (hstk : b.stockResp = Except.ok rowsOpt) :
    check_materials_availability b plan q sid st =
      ({ st with trace := st.trace ++ materialStockEffects sid (planMaterials plan) },
       Except.ok
         { available := (claimShortfalls rowsOpt sid q (planMaterials plan)).isEmpty
           missing := claimShortfalls rowsOpt sid q (planMaterials plan) }) := by
  rw [check_materials_eq b plan q sid st rowsOpt hstk,
    codeShortfalls_eq_claim rowsOpt sid q (planMaterials plan)]

/-- Witness for C2: a one-material BOM needing 2×3 = 6 with 4 in stock is
reported unavailable with shortfall `[("M1", 2)]`. -/
theorem C2_materials_check_witness :
    bC2.stockResp = Except.ok (some rowsC2) ∧
    check_materials_availability bC2 planC2 3 "s1" st0 =
      ({ st0 with trace := st0.trace ++ materialStockEffects "s1" (planMaterials planC2) },
       Except.ok
         { available := (claimShortfalls (some rowsC2) "s1" 3 (planMaterials planC2)).isEmpty
           missing := claimShortfalls (some rowsC2) "s1" 3 (planMaterials planC2) }) ∧
    claimShortfalls (some rowsC2) "s1" 3 (planMaterials planC2) = [("M1", 2)] := by
  refine ⟨rfl, C2_materials_check bC2 st0 planC2 3 "s1" (some rowsC2) rfl, ?_⟩
  simp +decide [claimShortfalls, planMaterials, planC2, rowsC2, stockScan, stockScanRows,
    stockScanStores, lastSegD, rsplitNext, lastSegAux, entryS1of4, refM1,
    List.filterMap_cons, List.filterMap_nil]
  norm_num

/-- C8: for every product id and warehouse id, the stock lookup scans the
fetched report rows in order: if the first row whose link-derived product id
matches has a store entry whose link-derived store id matches, it returns that
entry's `stock − reserve`; and it returns 0 when no matching
product-and-warehouse pair exists anywhere in the report. -/
theorem C8_stock_lookup (b : Backend) (st : PState) (pid sid : String)
    (rows : List StockByStoreRow) (hstk : b.stockResp = Except.ok (some rows)) :
    (∀ row entry, firstMatchingRow pid rows = some row →
        firstMatchingEntry sid (row.stock_by_store.getD []) = some entry →
        (get_product_stock b st pid sid).2 = Except.ok (entry.stock - entry.reserve)) ∧
    (pairExists pid sid rows = false →
        (get_product_stock b st pid sid).2 = Except.ok 0) := by
  constructor
  · intro row entry hrow hentry
    rw [get_product_stock_eq b st pid sid (some rows) hstk]
    simp [stockScan, stockScanRows_first pid sid rows row entry hrow hentry]
  · intro h
    rw [get_product_stock_eq b st pid sid (some rows) hstk]
    simp [stockScan, stockScanRows_none pid sid rows h]

/-- Witness for C8: in a concrete report, product `p` at store `s1` yields
`5 − 1 = 4`, and an unknown product yields 0. -/
theorem C8_stock_lookup_witness :
    bC8.stockResp = Except.ok (some rowsC8) ∧
    (get_product_stock bC8 st0 "p" "s1").2 = Except.ok (4 : Rat) ∧
    pairExists "q" "s1" rowsC8 = false ∧
    (get_product_stock bC8 st0 "q" "s1").2 = Except.ok 0 := by
  refine ⟨rfl, ?_, by decide, ?_⟩
  · have h := (C8_stock_lookup bC8 st0 "p" "s1" rowsC8 rfl).1
      rowC8b entryS1 (by decide) (by decide)
    rw [h]
    norm_num [entryS1]
  · exact (C8_stock_lookup bC8 st0 "q" "s1" rowsC8 rfl).2 (by decide)

/-- C6 counterexample: when the backend returns the two-element collection
`[eA, eB]`, the claim says the client returns the first element `eA`; the
code's `rows.pop()` returns the last element `eB` instead, for both the store
search and the organization lookup. -/
theorem C6_counterexample :
    [eA, eB].head? = some eA ∧
    (find_store_by_name bC6 st0 "W").2 ≠ Except.ok (some eA) ∧
    (find_store_by_name bC6 st0 "W").2 = Except.ok (some eB) ∧
    (get_organization_remote bC6 st0).2 ≠ Except.ok (some eA) ∧
    (get_organization_remote bC6 st0).2 = Except.ok (some eB) := by
  refine ⟨rfl, ?_, rfl, ?_, rfl⟩
  · intro h
    simp [find_store_by_name, bC6, eA, eB] at h
  · intro h
    simp [get_organization_remote, bC6, eA, eB] at h

/-- C6 amended: when the backend returns a non-empty collection,
`find_store_by_name` returns the **last** element of that collection (and none
when the collection is empty or absent), and the organization lookup likewise
returns the last organization in the backend's listing. -/
theorem C6_last_element (b : Backend) (st : PState) (name : String)
    (l rows : List EntityRef) :
    (b.findStoreResp name = Except.ok (some l) →
      (find_store_by_name b st name).2 = Except.ok l.getLast?) ∧
    (b.findStoreResp name = Except.ok none →
      (find_store_by_name b st name).2 = Except.ok none) ∧
    (b.getOrgResp = Except.ok (some rows) →
      (get_organization_remote b st).2 = Except.ok rows.getLast?) ∧
    (b.getOrgResp = Except.ok none →
      (get_organization_remote b st).2 = Except.ok none) := by
  refine ⟨fun h => ?_, fun h => ?_, fun h => ?_, fun h => ?_⟩
  · simp [find_store_by_name, h]
  · simp [find_store_by_name, h]
  · simp [get_organization_remote, h]
  · simp [get_organization_remote, h]

/-- Witness for C6 amended: on the collection `[eA, eB]` both lookups return
`eB`, the last element. -/
theorem C6_last_element_witness :
    bC6.findStoreResp "W" = Except.ok (some [eA, eB]) ∧
    (find_store_by_name bC6 st0 "W").2 = Except.ok (some eB) ∧
    bC6.getOrgResp = Except.ok (some [eA, eB]) ∧
    (get_organization_remote bC6 st0).2 = Except.ok (some eB) := by
  refine ⟨rfl, ?_, rfl, ?_⟩
  · have h := (C6_last_element bC6 st0 "W" [eA, eB] [eA, eB]).1 rfl
    simpa using h
  · have h := (C6_last_element bC6 st0 "W" [eA, eB] [eA, eB]).2.2.1 rfl
    simpa using h

/-- Default settings used in witnesses: threshold 2, field name as configured. -/
def settingsW : Settings :=
  { store_name := "Main", tech_card_field_name := "Техкарта", min_stock_threshold := 2 }

/-- Sample monitored warehouse with id `s1`. -/
def storeS1 : EntityRef := { meta := { href := "s1href" }, id := some "s1", name := some "Main" }

/-- Processor state with the warehouse cache already populated. -/
def stC10 : PState := { storeCache := some storeS1, organizationCache := none, trace := [] }

/-- A confirmed demand at warehouse `s1` with absent positions. -/
def demandC10 : Demand :=
  { id := "d1", name := "D1", moment := "2024-01-01", applicable := true,
    store := storeS1, positions := none }

/-- Webhook event carrying `demandC10` inline. -/
def eventC10 : WebhookEvent :=
  { entity_type := "demand", action := "CREATE", entity := some demandC10, content := none }

/-- A backend none of whose endpoints are consulted. -/
def bNone : Backend :=
  { findStoreResp := fun _ => Except.error "unused"
    stockResp := Except.error "unused"
    getProductResp := fun _ => Except.error "unused"
    findPlanResp := fun _ => Except.error "unused"
    getOrgResp := Except.error "unused"
    createResp := fun _ => Except.error "unused"
    applyResp := fun _ => Except.error "unused"
    getDemandResp := fun _ => Except.error "unused" }

/-- C10: for every confirmed document at the monitored warehouse whose
positions field is absent, `process_webhook` returns an empty result list (not
a synthetic single result and not an error) and the state — in particular the
trace of remote calls — is unchanged, so no per-line remote calls are issued. -/
theorem C10_no_positions (b : Backend) (settings : Settings) (event : WebhookEvent)
    (st : PState) (demand : Demand) (store : EntityRef) (sid : String)
    (htype : event.entity_type = "demand")
    (hent : event.entity = some demand)
    (happ : demand.applicable = true)
    (hcache : st.storeCache = some store)
    (hds : demand.store.id = some sid)
    (hcs : store.id = some sid)
    (hpos : demand.positions = none) :
    process_webhook b settings event st = (st, Except.ok []) := by
  simp [process_webhook, htype, resolve_demand, hent, happ, get_store, hcache, hds, hcs,
    process_demand_positions, hpos]

/-- Witness for C10 at a concrete confirmed demand with no positions. -/
theorem C10_no_positions_witness :
    eventC10.entity_type = "demand" ∧ demandC10.applicable = true ∧
    demandC10.positions = none ∧
    process_webhook bNone settingsW eventC10 stC10 = (stC10, Except.ok []) :=
  ⟨rfl, rfl, rfl,
    C10_no_positions bNone settingsW eventC10 stC10 demandC10 storeS1 "s1"
      rfl rfl rfl rfl rfl rfl rfl⟩

theorem resolve_demand_state (b : Backend) (event : WebhookEvent) (st : PState) :
    (resolve_demand b event st).1 = st ∨
    ∃ id, (resolve_demand b event st).1 =
      { st with trace := st.trace ++ [Effect.getDemand id] } := by
  cases hent : event.entity with
  | some d => left; simp [resolve_demand, hent]
  | none =>
    cases hcont : event.content with
    | none => left; simp [resolve_demand, hent, hcont]
    | some c =>
      cases hid : c.id with
      | none => left; simp [resolve_demand, hent, hcont, hid]
      | some id =>
        right
        exact ⟨id, by simp [resolve_demand, hent, hcont, hid, get_demand]⟩

/-- C4: for every resolved document whose applicable flag is false,
`process_webhook` returns exactly one result, with success, no product detail
and no transaction id; the trace gains at most the document fetch itself, so
no remote write call (creation or confirmation) and no per-line processing
occur. -/
theorem C4_not_applicable (b : Backend) (settings : Settings) (event : WebhookEvent)
    (st st1 : PState) (demand : Demand)
    (htype : event.entity_type = "demand")
    (hres : resolve_demand b event st = (st1, Except.ok demand))
    (happ : demand.applicable = false) :
    process_webhook b settings event st = (st1, Except.ok [notApplicableResult demand]) ∧
    (notApplicableResult demand).success = true ∧
    (notApplicableResult demand).product = none ∧
    (notApplicableResult demand).processing_id = none ∧
    (notApplicableResult demand).processing_name = none ∧
    (st1.trace = st.trace ∨ ∃ id, st1.trace = st.trace ++ [Effect.getDemand id]) := by
  refine ⟨?_, rfl, rfl, rfl, rfl, ?_⟩
  · simp [process_webhook, htype, hres, happ]
  · have h := resolve_demand_state b event st
    rw [hres] at h
    rcases h with h | ⟨id, h⟩
    · left
      have h2 : st1 = st := h
      rw [h2]
    · right
      refine ⟨id, ?_⟩
      have h2 : st1 = { st with trace := st.trace ++ [Effect.getDemand id] } := h
      rw [h2]

/-- An unconfirmed demand. -/
def demandC4 : Demand :=
  { id := "d2", name := "D2", moment := "2024-01-02", applicable := false,
    store := storeS1, positions := none }

/-- Webhook event carrying the unconfirmed `demandC4` inline. -/
def eventC4 : WebhookEvent :=
  { entity_type := "demand", action := "CREATE", entity := some demandC4, content := none }

/-- Witness for C4: an unconfirmed demand yields one success skip result and an
unchanged trace. -/
theorem C4_not_applicable_witness :
    demandC4.applicable = false ∧
    process_webhook bNone settingsW eventC4 st0 = (st0, Except.ok [notApplicableResult demandC4]) ∧
    (notApplicableResult demandC4).success = true ∧
    (notApplicableResult demandC4).product = none ∧
    (notApplicableResult demandC4).processing_id = none := by
  have h := C4_not_applicable bNone settingsW eventC4 st0 st0 demandC4 rfl rfl rfl
  exact ⟨rfl, h.1, h.2.1, h.2.2.1, h.2.2.2.1⟩

/-- C5: for every line item whose observed available stock is at least the
configured minimum threshold, `process_position` yields a success result whose
product snapshot records the observed stock, the only remote call made for the
line is the single stock read (no product-attribute fetch, no BOM lookup, no
material stock lookup, no transaction creation), and no transaction id is set. -/
theorem C5_sufficient_stock (b : Backend) (settings : Settings) (demand : Demand)
    (position : DemandPosition) (st : PState) (store : EntityRef) (sid pid : String)
    (rowsOpt : Option (List StockByStoreRow))
    (hcache : st.storeCache = some store)
    (hsid : store.id = some sid)
    (hpid : rsplitNext position.assortment.meta.href = some pid)
    (hstk : b.stockResp = Except.ok rowsOpt)
    (hge : stockScan rowsOpt pid sid ≥ settings.min_stock_threshold) :
    process_position b settings demand position st =
      ({ st with trace := st.trace ++ [Effect.getStock pid sid] },
       Except.ok
         { success := true
           message := "Остаток достаточен (" ++ toString (stockScan rowsOpt pid sid)
             ++ " >= " ++ toString settings.min_stock_threshold ++ ")"
           demand_id := some demand.id
           demand_name := some demand.name
           processing_id := none
           processing_name := none
           product := some ⟨pid, position.assortment.name.getD "unknown",
             position.quantity, stockScan rowsOpt pid sid⟩
           error := none }) := by
  rw [process_position, hpid]
  simp only [get_store, hcache, hsid, get_product_stock_eq b st pid sid rowsOpt hstk]
  simp [hge]

/-- The line item for product `p`, quantity 1. -/
def positionP : DemandPosition :=
  { assortment := { meta := { href := "p" }, id := some "p", name := some "Prod" }
    quantity := 1 }

/-- Witness for C5: product `p` has stock 4 ≥ threshold 2, so the line is a
skip with the observed stock in the snapshot and only one stock read issued. -/
theorem C5_sufficient_stock_witness :
    stockScan (some rowsC8) "p" "s1" ≥ settingsW.min_stock_threshold ∧
    process_position bC8 settingsW demandC10 positionP stC10 =
      ({ stC10 with trace := stC10.trace ++ [Effect.getStock "p" "s1"] },
       Except.ok
         { success := true
           message := "Остаток достаточен (" ++ toString (stockScan (some rowsC8) "p" "s1")
             ++ " >= " ++ toString settingsW.min_stock_threshold ++ ")"
           demand_id := some demandC10.id
           demand_name := some demandC10.name
           processing_id := none
           processing_name := none
           product := some ⟨"p", positionP.assortment.name.getD "unknown",
             positionP.quantity, stockScan (some rowsC8) "p" "s1"⟩
           error := none }) := by
  have hge : stockScan (some rowsC8) "p" "s1" ≥ settingsW.min_stock_threshold := by
    have : stockScan (some rowsC8) "p" "s1" = 4 := by
      simp +decide [stockScan, stockScanRows, stockScanStores, rowsC8, rowC8a, rowC8b,
        entryS1, entryS2, lastSegD, rsplitNext, lastSegAux]
      norm_num
    rw [this]
    norm_num [settingsW]
  exact ⟨hge, C5_sufficient_stock bC8 settingsW demandC10 positionP stC10 storeS1 "s1" "p"
    (some rowsC8) rfl rfl rfl rfl hge⟩

/-- C7: for a line with stock below threshold, an absent or empty BOM-name
attribute yields a structured `success:false` result with error
"Тех. карта не найдена" and a product snapshot (no propagated error); whereas
a non-empty BOM name that resolves to no processing plan makes the line return
a hard `Except.error` (caught only by the per-line handler upstream), not a
structured soft failure. -/
theorem C7_tech_card (b : Backend) (settings : Settings) (demand : Demand)
    (position : DemandPosition) (st : PState) (store : EntityRef) (sid pid : String)
    (rowsOpt : Option (List StockByStoreRow)) (prod : Product)
    (hcache : st.storeCache = some store)
    (hsid : store.id = some sid)
    (hpid : rsplitNext position.assortment.meta.href = some pid)
    (hstk : b.stockResp = Except.ok rowsOpt)
    (hlt : stockScan rowsOpt pid sid < settings.min_stock_threshold)
    (hprod : b.getProductResp pid = Except.ok prod) :
    (find_tech_card_name settings prod = "" →
      process_position b settings demand position st =
        ({ st with trace := st.trace ++ [Effect.getStock pid sid, Effect.getProduct pid] },
         Except.ok
           { success := false
             message := "Тех. карта не найдена в карточке товара"
             demand_id := some demand.id
             demand_name := some demand.name
             processing_id := none
             processing_name := none
             product := some ⟨pid, position.assortment.name.getD "unknown",
               position.quantity, stockScan rowsOpt pid sid⟩
             error := some "Тех. карта не найдена" })) ∧
    (∀ planRowsOpt, find_tech_card_name settings prod ≠ "" →
      b.findPlanResp (find_tech_card_name settings prod) = Except.ok planRowsOpt →
      Option.bind planRowsOpt List.getLast? = none →
      process_position b settings demand position st =
        ({ st with trace := st.trace ++ [Effect.getStock pid sid, Effect.getProduct pid,
            Effect.findPlan (find_tech_card_name settings prod)] },
         Except.error ("Processing plan not found: " ++ find_tech_card_name settings prod))) := by
  have hnotge : ¬ stockScan rowsOpt pid sid ≥ settings.min_stock_threshold := not_le.mpr hlt
  constructor
  · intro hname
    rw [process_position, hpid]
    simp only [get_store, hcache, hsid, get_product_stock_eq b st pid sid rowsOpt hstk]
    simp [hnotge, get_product, hprod, hname, String.isEmpty_iff]
  · intro planRowsOpt hname hplan hlast
    rw [process_position, hpid]
    simp only [get_store, hcache, hsid, get_product_stock_eq b st pid sid rowsOpt hstk]
    simp [hnotge, get_product, hprod, String.isEmpty_iff, hname,
      find_processing_plan_by_name, hplan, hlast]

/-- A product with no attributes: its BOM name is empty. -/
def prodNoAttrs : Product := { id := "p", name := "Prod", attributes := none }

/-- The configured BOM-name attribute with value "TC1". -/
def attrTC : Attribute :=
  { id := "a1", name := "Техкарта", attrType := "string",
    value := some (AttributeValue.Str "TC1") }

/-- A product carrying the BOM-name attribute "TC1". -/
def prodWithTC : Product := { id := "p", name := "Prod", attributes := some [attrTC] }

/-- Backend for the empty-BOM-name case: stock report empty (stock 0), product
without attributes. -/
def bC7a : Backend :=
  { findStoreResp := fun _ => Except.error "unused"
    stockResp := Except.ok (some [])
    getProductResp := fun _ => Except.ok prodNoAttrs
    findPlanResp := fun _ => Except.error "unused"
    getOrgResp := Except.error "unused"
    createResp := fun _ => Except.error "unused"
    applyResp := fun _ => Except.error "unused"
    getDemandResp := fun _ => Except.error "unused" }

/-- Backend for the unresolvable-BOM-name case: stock 0, product with BOM name
"TC1", plan search returning an empty collection. -/
def bC7b : Backend :=
  { findStoreResp := fun _ => Except.error "unused"
    stockResp := Except.ok (some [])
    getProductResp := fun _ => Except.ok prodWithTC
    findPlanResp := fun _ => Except.ok (some [])
    getOrgResp := Except.error "unused"
    createResp := fun _ => Except.error "unused"
    applyResp := fun _ => Except.error "unused"
    getDemandResp := fun _ => Except.error "unused" }

/-- Witness for C7: with stock 0 < 2, an attribute-less product yields the
structured "Тех. карта не найдена" soft failure, while the name "TC1" that
resolves to no plan makes the line return a hard error. -/
theorem C7_tech_card_witness :
    stockScan (some []) "p" "s1" < settingsW.min_stock_threshold ∧
    find_tech_card_name settingsW prodNoAttrs = "" ∧
    process_position bC7a settingsW demandC10 positionP stC10 =
      ({ stC10 with trace := stC10.trace ++ [Effect.getStock "p" "s1", Effect.getProduct "p"] },
       Except.ok
         { success := false
           message := "Тех. карта не найдена в карточке товара"
           demand_id := some demandC10.id
           demand_name := some demandC10.name
           processing_id := none
           processing_name := none
           product := some ⟨"p", positionP.assortment.name.getD "unknown",
             positionP.quantity, stockScan (some []) "p" "s1"⟩
           error := some "Тех. карта не найдена" }) ∧
    find_tech_card_name settingsW prodWithTC = "TC1" ∧
    process_position bC7b settingsW demandC10 positionP stC10 =
      ({ stC10 with trace := stC10.trace ++ [Effect.getStock "p" "s1", Effect.getProduct "p",
          Effect.findPlan (find_tech_card_name settingsW prodWithTC)] },
       Except.error ("Processing plan not found: " ++ find_tech_card_name settingsW prodWithTC)) := by
  have hlt : stockScan (some []) "p" "s1" < settingsW.min_stock_threshold := by
    show stockScanRows "p" "s1" [] < settingsW.min_stock_threshold
    rw [stockScanRows]
    norm_num [settingsW]
  have hname1 : find_tech_card_name settingsW prodNoAttrs = "" := rfl
  have hname2 : find_tech_card_name settingsW prodWithTC = "TC1" := by decide
  refine ⟨hlt, hname1, ?_, hname2, ?_⟩
  · exact (C7_tech_card bC7a settingsW demandC10 positionP stC10 storeS1 "s1" "p"
      (some []) prodNoAttrs rfl rfl rfl rfl hlt rfl).1 hname1
  · exact (C7_tech_card bC7b settingsW demandC10 positionP stC10 storeS1 "s1" "p"
      (some []) prodWithTC rfl rfl rfl rfl hlt rfl).2 (some [])
      (by rw [hname2]; intro h; exact absurd h (by decide)) rfl rfl

/-- Reference fold following the spec's words for per-line processing: one
result per line item in order; a line whose processing errs contributes the
converted `success:false` entry; processing always continues with the rest. -/
def positionsSpecFold (b : Backend) (settings : Settings) (demand : Demand) :
    List DemandPosition → PState → PState × List ProcessingResult
  | [], st => (st, [])
  | p :: rest, st =>
    match process_position b settings demand p st with
    | (st1, Except.ok r) =>
      let s2 := positionsSpecFold b settings demand rest st1
      (s2.1, r :: s2.2)
    | (st1, Except.error e) =>
      let s2 := positionsSpecFold b settings demand rest st1
      (s2.1, lineErrorResult demand p e :: s2.2)

theorem positions_loop_eq_specFold (b : Backend) (settings : Settings) (demand : Demand) :
    ∀ (ps : List DemandPosition) (acc : List ProcessingResult) (st : PState),
    positions_loop b settings demand ps acc st =
      ((positionsSpecFold b settings demand ps st).1,
       Except.ok (acc ++ (positionsSpecFold b settings demand ps st).2)) := by
  intro ps
  induction ps with
  | nil => intro acc st; simp [positions_loop, positionsSpecFold]
  | cons p rest ih =>
    intro acc st
    rw [positions_loop, positionsSpecFold]
    cases hpp : process_position b settings demand p st with
    | mk st1 r =>
      cases r with
      | ok result => simp [ih, List.append_assoc]
      | error e => simp [ih, List.append_assoc]

theorem positionsSpecFold_length (b : Backend) (settings : Settings) (demand : Demand) :
    ∀ (ps : List DemandPosition) (st : PState),
    (positionsSpecFold b settings demand ps st).2.length = ps.length := by
  intro ps
  induction ps with
  | nil => intro st; simp [positionsSpecFold]
  | cons p rest ih =>
    intro st
    rw [positionsSpecFold]
    cases hpp : process_position b settings demand p st with
    | mk st1 r =>
      cases r with
      | ok result => simp [ih]
      | error e => simp [ih]

/-- C3: for every document with line items, processing the positions yields an
`Except.ok` list (a per-line failure never aborts the batch) with exactly one
`ProcessingResult` per line item in order, as described by `positionsSpecFold`:
a line whose `process_position` errs contributes the converted `success:false`
entry `lineErrorResult` — which carries the error text and the best-effort
snapshot extracted from the line itself, with `stock_before = 0` — and
processing of the remaining lines continues from the resulting state. -/
theorem C3_per_line_isolation (b : Backend) (settings : Settings) (demand : Demand)
    (st : PState) (P : DemandPositions) (hpos : demand.positions = some P) :
    process_demand_positions b settings demand st =
      ((positionsSpecFold b settings demand P.rows st).1,
       Except.ok (positionsSpecFold b settings demand P.rows st).2) ∧
    (positionsSpecFold b settings demand P.rows st).2.length = P.rows.length ∧
    (∀ p e, (lineErrorResult demand p e).success = false ∧
      (lineErrorResult demand p e).error = some e ∧
      (lineErrorResult demand p e).product =
        some (extract_product_info_from_position p) ∧
      (extract_product_info_from_position p).id =
        (rsplitNext p.assortment.meta.href).getD "unknown" ∧
      (extract_product_info_from_position p).name = p.assortment.name.getD "unknown" ∧
      (extract_product_info_from_position p).quantity = p.quantity ∧
      (extract_product_info_from_position p).stock_before = 0) := by
  refine ⟨?_, positionsSpecFold_length b settings demand P.rows st,
    fun p e => ⟨rfl, rfl, rfl, rfl, rfl, rfl, rfl⟩⟩
  simp only [process_demand_positions, hpos]
  rw [positions_loop_eq_specFold b settings demand P.rows [] st]
  simp

theorem process_position_product_error (b : Backend) (settings : Settings)
    (demand : Demand) (position : DemandPosition) (st : PState) (store : EntityRef)
    (sid pid e : String) (rowsOpt : Option (List StockByStoreRow))
    (hcache : st.storeCache = some store)
    (hsid : store.id = some sid)
    (hpid : rsplitNext position.assortment.meta.href = some pid)
    (hstk : b.stockResp = Except.ok rowsOpt)
    (hlt : stockScan rowsOpt pid sid < settings.min_stock_threshold)
    (hprod : b.getProductResp pid = Except.error e) :
    process_position b settings demand position st =
      ({ st with trace := st.trace ++ [Effect.getStock pid sid, Effect.getProduct pid] },
       Except.error e) := by
  have hnotge : ¬ stockScan rowsOpt pid sid ≥ settings.min_stock_threshold := not_le.mpr hlt
  rw [process_position, hpid]
  simp only [get_store, hcache, hsid, get_product_stock_eq b st pid sid rowsOpt hstk]
  simp [hnotge, get_product, hprod]

/-- Line item for an unknown product `x`. -/
def positionX : DemandPosition :=
  { assortment := { meta := { href := "x" }, id := some "x", name := some "Xprod" }
    quantity := 1 }

/-- A confirmed demand whose single position is `positionX`. -/
def demandC3 : Demand :=
  { id := "d3", name := "D3", moment := "2024-01-03", applicable := true,
    store := storeS1, positions := some { rows := [positionX] } }

/-- Backend where the stock report is empty and the product fetch fails. -/
def bC3 : Backend :=
  { findStoreResp := fun _ => Except.error "unused"
    stockResp := Except.ok (some [])
    getProductResp := fun _ => Except.error "boom"
    findPlanResp := fun _ => Except.error "unused"
    getOrgResp := Except.error "unused"
    createResp := fun _ => Except.error "unused"
    applyResp := fun _ => Except.error "unused"
    getDemandResp := fun _ => Except.error "unused" }

/-- Witness for C3: a line whose product fetch fails with "boom" is converted
into a `success:false` entry and the batch still returns `Except.ok`. -/
theorem C3_per_line_isolation_witness :
    demandC3.positions = some { rows := [positionX] } ∧
    process_demand_positions bC3 settingsW demandC3 stC10 =
      ({ stC10 with trace := stC10.trace ++ [Effect.getStock "x" "s1", Effect.getProduct "x"] },
       Except.ok [lineErrorResult demandC3 positionX "boom"]) ∧
    (lineErrorResult demandC3 positionX "boom").success = false ∧
    (lineErrorResult demandC3 positionX "boom").error = some "boom" ∧
    (positionsSpecFold bC3 settingsW demandC3 [positionX] stC10).2.length = 1 := by
  have hlt : stockScan (some []) "x" "s1" < settingsW.min_stock_threshold := by
    show stockScanRows "x" "s1" [] < settingsW.min_stock_threshold
    rw [stockScanRows]
    norm_num [settingsW]
  have hpp : process_position bC3 settingsW demandC3 positionX stC10 =
      ({ stC10 with trace := stC10.trace ++ [Effect.getStock "x" "s1", Effect.getProduct "x"] },
       Except.error "boom") :=
    process_position_product_error bC3 settingsW demandC3 positionX stC10 storeS1
      "s1" "x" "boom" (some []) rfl rfl rfl rfl hlt rfl
  have h := C3_per_line_isolation bC3 settingsW demandC3 stC10 { rows := [positionX] } rfl
  have hfold : positionsSpecFold bC3 settingsW demandC3 [positionX] stC10 =
      ({ stC10 with trace := stC10.trace ++ [Effect.getStock "x" "s1", Effect.getProduct "x"] },
       [lineErrorResult demandC3 positionX "boom"]) := by
    simp [positionsSpecFold, hpp]
  refine ⟨rfl, ?_, rfl, rfl, ?_⟩
  · rw [h.1, hfold]
  · exact h.2.1

/-! ### Trace-extension infrastructure (the trace of remote calls only grows) -/

/-- The second state's trace extends the first state's trace. -/
def traceExt (st st' : PState) : Prop := ∃ t, st'.trace = st.trace ++ t

theorem traceExt_refl (st : PState) : traceExt st st := ⟨[], by simp⟩

theorem traceExt_trans {s1 s2 s3 : PState} (h1 : traceExt s1 s2) (h2 : traceExt s2 s3) :
    traceExt s1 s3 := by
  obtain ⟨t1, e1⟩ := h1
  obtain ⟨t2, e2⟩ := h2
  exact ⟨t1 ++ t2, by rw [e2, e1, List.append_assoc]⟩

theorem traceExt_mem {s1 s2 : PState} (h : traceExt s1 s2) {e : Effect}
    (he : e ∈ s1.trace) : e ∈ s2.trace := by
  obtain ⟨t, ht⟩ := h
  rw [ht]
  exact List.mem_append_left _ he

theorem traceExt_fst {α : Type} {X : PState × α} {st st' : PState} {r : α}
    (h : X = (st', r)) (hg : traceExt st X.1) : traceExt st st' := by
  have h1 : X.1 = st' := by rw [h]
  rw [← h1]
  exact hg

theorem get_product_stock_fst (b : Backend) (st : PState) (pid sid : String) :
    (get_product_stock b st pid sid).1 =
      { st with trace := st.trace ++ [Effect.getStock pid sid] } := by
  cases h : b.stockResp <;> simp [get_product_stock, h]

theorem find_store_by_name_fst (b : Backend) (st : PState) (name : String) :
    (find_store_by_name b st name).1 =
      { st with trace := st.trace ++ [Effect.findStore name] } := by
  cases h : b.findStoreResp name <;> simp [find_store_by_name, h]

theorem find_processing_plan_by_name_fst (b : Backend) (st : PState) (name : String) :
    (find_processing_plan_by_name b st name).1 =
      { st with trace := st.trace ++ [Effect.findPlan name] } := by
  cases h : b.findPlanResp name <;> simp [find_processing_plan_by_name, h]

theorem get_organization_remote_fst (b : Backend) (st : PState) :
    (get_organization_remote b st).1 =
      { st with trace := st.trace ++ [Effect.getOrganization] } := by
  cases h : b.getOrgResp <;> simp [get_organization_remote, h]

theorem get_store_traceExt (b : Backend) (settings : Settings) (st st' : PState)
    (r : Except String EntityRef) (h : get_store b settings st = (st', r)) :
    traceExt st st' := by
  cases hc : st.storeCache with
  | some store =>
    rw [get_store, hc] at h
    injection h with h1 h2
    subst h1
    exact traceExt_refl st
  | none =>
    rw [get_store, hc] at h
    cases hfs : find_store_by_name b st settings.store_name with
    | mk st1 r1 =>
      rw [hfs] at h
      have h3 : st1 = { st with trace := st.trace ++ [Effect.findStore settings.store_name] } := by
        have h2 := congrArg Prod.fst hfs
        rw [find_store_by_name_fst] at h2
        exact h2.symm
      refine ⟨[Effect.findStore settings.store_name], ?_⟩
      cases r1 with
      | error e =>
        injection h with ha hb
        subst ha
        rw [h3]
      | ok storeOpt =>
        cases storeOpt with
        | none =>
          injection h with ha hb
          subst ha
          rw [h3]
        | some store =>
          injection h with ha hb
          subst ha
          show ({ st1 with storeCache := some store } : PState).trace = _
          rw [h3]

theorem get_organization_traceExt (b : Backend) (st st' : PState)
    (r : Except String EntityRef) (h : get_organization b st = (st', r)) :
    traceExt st st' := by
  cases hc : st.organizationCache with
  | some org =>
    rw [get_organization, hc] at h
    injection h with h1 h2
    subst h1
    exact traceExt_refl st
  | none =>
    rw [get_organization, hc] at h
    cases hfs : get_organization_remote b st with
    | mk st1 r1 =>
      rw [hfs] at h
      have h3 : st1 = { st with trace := st.trace ++ [Effect.getOrganization] } := by
        have h2 := congrArg Prod.fst hfs
        rw [get_organization_remote_fst] at h2
        exact h2.symm
      refine ⟨[Effect.getOrganization], ?_⟩
      cases r1 with
      | error e =>
        injection h with ha hb
        subst ha
        rw [h3]
      | ok orgOpt =>
        cases orgOpt with
        | none =>
          injection h with ha hb
          subst ha
          rw [h3]
        | some org =>
          injection h with ha hb
          subst ha
          show ({ st1 with organizationCache := some org } : PState).trace = _
          rw [h3]

theorem check_materials_loop_traceExt (b : Backend) (sid : String) (q : Rat) :
    ∀ (ms : List ProcessingPlanMaterial) (acc : List (String × Rat)) (st st' : PState)
      (r : Except String (List (String × Rat))),
    check_materials_loop b sid q ms acc st = (st', r) → traceExt st st' := by
  intro ms
  induction ms with
  | nil =>
    intro acc st st' r h
    rw [check_materials_loop] at h
    injection h with h1 h2
    subst h1
    exact traceExt_refl st
  | cons m rest ih =>
    intro acc st st' r h
    rw [check_materials_loop] at h
    cases hps : get_product_stock b st (lastSegD m.product.meta.href "") sid with
    | mk st1 r1 =>
      rw [hps] at h
      have h3 : st1 = { st with trace :=
          st.trace ++ [Effect.getStock (lastSegD m.product.meta.href "") sid] } := by
        have h2 := congrArg Prod.fst hps
        rw [get_product_stock_fst] at h2
        exact h2.symm
      cases r1 with
      | error e =>
        injection h with ha hb
        subst ha
        exact ⟨[Effect.getStock (lastSegD m.product.meta.href "") sid], by rw [h3]⟩
      | ok stock =>
        dsimp only at h
        have h4 := ih _ _ _ _ h
        exact traceExt_trans
          ⟨[Effect.getStock (lastSegD m.product.meta.href "") sid], by rw [h3]⟩ h4

theorem check_materials_traceExt (b : Backend) (plan : ProcessingPlan) (q : Rat)
    (sid : String) (st st' : PState) (r : Except String MaterialsCheckResult)
    (h : check_materials_availability b plan q sid st = (st', r)) : traceExt st st' := by
  rw [check_materials_availability] at h
  cases hm : plan.materials with
  | none =>
    rw [hm] at h
    injection h with h1 h2
    subst h1
    exact traceExt_refl st
  | some me =>
    rw [hm] at h
    dsimp only at h
    cases hr : me.rows with
    | none =>
      rw [hr] at h
      dsimp only at h
      injection h with h1 h2
      subst h1
      exact traceExt_refl st
    | some materials =>
      rw [hr] at h
      dsimp only at h
      cases hl : check_materials_loop b sid q materials [] st with
      | mk st1 r1 =>
        rw [hl] at h
        cases r1 with
        | error e =>
          injection h with h1 h2
          subst h1
          exact check_materials_loop_traceExt b sid q _ _ _ _ _ hl
        | ok missing =>
          injection h with h1 h2
          subst h1
          exact check_materials_loop_traceExt b sid q _ _ _ _ _ hl

theorem get_product_fst (b : Backend) (st : PState) (pid : String) :
    (get_product b st pid).1 = { st with trace := st.trace ++ [Effect.getProduct pid] } := rfl

theorem create_processing_operation_fst (b : Backend) (st : PState)
    (plan : ProcessingPlan) (store organization : EntityRef) (quantity : Rat)
    (demand : Demand) (product_name : String) :
    (create_processing_operation b st plan store organization quantity demand product_name).1 =
      { st with trace := st.trace ++ [Effect.createProcessing] } := rfl

theorem apply_processing_fst (b : Backend) (st : PState) (pid : String) :
    (apply_processing b st pid).1 =
      { st with trace := st.trace ++ [Effect.applyProcessing pid] } := rfl

theorem process_position_inv (b : Backend) (settings : Settings) (demand : Demand)
    (position : DemandPosition) (st st' : PState) (r : Except String ProcessingResult)
    (h : process_position b settings demand position st = (st', r)) :
    traceExt st st' ∧ ∀ res, r = Except.ok res →
      res.error.isSome = !res.success ∧
      res.processing_id.isSome = res.processing_name.isSome ∧
      (res.processing_id.isSome = true →
        res.success = true ∧
        Effect.createProcessing ∈ st'.trace.drop st.trace.length ∧
        ∃ pid, Effect.applyProcessing pid ∈ st'.trace.drop st.trace.length) := by
  rw [process_position] at h
  cases hpid : rsplitNext position.assortment.meta.href with
  | none =>
    rw [hpid] at h
    injection h with h1 h2
    subst h1
    subst h2
    exact ⟨traceExt_refl st, fun res hres => by simp at hres⟩
  | some pid =>
    rw [hpid] at h
    dsimp only at h
    cases hgs : get_store b settings st with
    | mk st1 r1 =>
      rw [hgs] at h
      have ext1 : traceExt st st1 := get_store_traceExt b settings st st1 r1 hgs
      cases r1 with
      | error e =>
        injection h with h1 h2
        subst h1
        subst h2
        exact ⟨ext1, fun res hres => by simp at hres⟩
      | ok store =>
        dsimp only at h
        cases hsid : store.id with
        | none =>
          rw [hsid] at h
          injection h with h1 h2
          subst h1
          subst h2
          exact ⟨ext1, fun res hres => by simp at hres⟩
        | some store_id =>
          rw [hsid] at h
          dsimp only at h
          cases hps : get_product_stock b st1 pid store_id with
          | mk st2 r2 =>
            rw [hps] at h
            have e2 : st2 = { st1 with trace := st1.trace ++ [Effect.getStock pid store_id] } := by
              have h2 := congrArg Prod.fst hps
              rw [get_product_stock_fst] at h2
              exact h2.symm
            have ext2 : traceExt st st2 :=
              traceExt_trans ext1 ⟨[Effect.getStock pid store_id], by rw [e2]⟩
            cases r2 with
            | error e =>
              injection h with h1 h2
              subst h1
              subst h2
              exact ⟨ext2, fun res hres => by simp at hres⟩
            | ok current_stock =>
              dsimp only at h
              by_cases hge : current_stock ≥ settings.min_stock_threshold
              · rw [if_pos hge] at h
                injection h with h1 h2
                subst h1
                subst h2
                refine ⟨ext2, fun res hres => ?_⟩
                injection hres with h9
                subst h9
                simp
              · rw [if_neg hge] at h
                cases hgp : get_product b st2 pid with
                | mk st3 r3 =>
                  rw [hgp] at h
                  have e3 : st3 = { st2 with trace := st2.trace ++ [Effect.getProduct pid] } := by
                    have h2 := congrArg Prod.fst hgp
                    rw [get_product_fst] at h2
                    exact h2.symm
                  have ext3 : traceExt st st3 :=
                    traceExt_trans ext2 ⟨[Effect.getProduct pid], by rw [e3]⟩
                  cases r3 with
                  | error e =>
                    injection h with h1 h2
                    subst h1
                    subst h2
                    exact ⟨ext3, fun res hres => by simp at hres⟩
                  | ok product =>
                    dsimp only at h
                    by_cases hemp : (find_tech_card_name settings product).isEmpty = true
                    · rw [if_pos hemp] at h
                      injection h with h1 h2
                      subst h1
                      subst h2
                      refine ⟨ext3, fun res hres => ?_⟩
                      injection hres with h9
                      subst h9
                      simp
                    · rw [if_neg hemp] at h
                      cases hfp : find_processing_plan_by_name b st3
                          (find_tech_card_name settings product) with
                      | mk st4 r4 =>
                        rw [hfp] at h
                        have e4 : st4 = { st3 with trace := st3.trace ++
                            [Effect.findPlan (find_tech_card_name settings product)] } := by
                          have h2 := congrArg Prod.fst hfp
                          rw [find_processing_plan_by_name_fst] at h2
                          exact h2.symm
                        have ext4 : traceExt st st4 :=
                          traceExt_trans ext3
                            ⟨[Effect.findPlan (find_tech_card_name settings product)], by rw [e4]⟩
                        cases r4 with
                        | error e =>
                          injection h with h1 h2
                          subst h1
                          subst h2
                          exact ⟨ext4, fun res hres => by simp at hres⟩
                        | ok planOpt =>
                          cases planOpt with
                          | none =>
                            dsimp only at h
                            injection h with h1 h2
                            subst h1
                            subst h2
                            exact ⟨ext4, fun res hres => by simp at hres⟩
                          | some processing_plan =>
                            dsimp only at h
                            cases hcm : check_materials_availability b processing_plan
                                position.quantity store_id st4 with
                            | mk st5 r5 =>
                              rw [hcm] at h
                              have ext5 : traceExt st st5 :=
                                traceExt_trans ext4
                                  (check_materials_traceExt b processing_plan
                                    position.quantity store_id st4 st5 r5 hcm)
                              cases r5 with
                              | error e =>
                                injection h with h1 h2
                                subst h1
                                subst h2
                                exact ⟨ext5, fun res hres => by simp at hres⟩
                              | ok materials_check =>
                                dsimp only at h
                                cases hav : materials_check.available with
                                | false =>
                                  rw [hav] at h
                                  rw [if_pos (show (!false) = true from rfl)] at h
                                  injection h with h1 h2
                                  subst h1
                                  subst h2
                                  refine ⟨ext5, fun res hres => ?_⟩
                                  injection hres with h9
                                  subst h9
                                  simp
                                | true =>
                                  rw [hav] at h
                                  rw [if_neg (show ¬ (!true) = true by simp)] at h
                                  cases hgo : get_organization b st5 with
                                  | mk st6 r6 =>
                                    rw [hgo] at h
                                    have ext6 : traceExt st st6 :=
                                      traceExt_trans ext5
                                        (get_organization_traceExt b st5 st6 r6 hgo)
                                    cases r6 with
                                    | error e =>
                                      injection h with h1 h2
                                      subst h1
                                      subst h2
                                      exact ⟨ext6, fun res hres => by simp at hres⟩
                                    | ok organization =>
                                      dsimp only at h
                                      cases hco : create_processing_operation b st6
                                          processing_plan store organization
                                          position.quantity demand
                                          (position.assortment.name.getD "unknown") with
                                      | mk st7 r7 =>
                                        rw [hco] at h
                                        have e7 : st7 = { st6 with trace :=
                                            st6.trace ++ [Effect.createProcessing] } := by
                                          have h2 := congrArg Prod.fst hco
                                          rw [create_processing_operation_fst] at h2
                                          exact h2.symm
                                        have ext7 : traceExt st st7 :=
                                          traceExt_trans ext6
                                            ⟨[Effect.createProcessing], by rw [e7]⟩
                                        cases r7 with
                                        | error e =>
                                          injection h with h1 h2
                                          subst h1
                                          subst h2
                                          exact ⟨ext7, fun res hres => by simp at hres⟩
                                        | ok processing =>
                                          dsimp only at h
                                          cases hap : apply_processing b st7 processing.id with
                                          | mk st8 r8 =>
                                            rw [hap] at h
                                            have e8 : st8 = { st7 with trace :=
                                                st7.trace ++
                                                  [Effect.applyProcessing processing.id] } := by
                                              have h2 := congrArg Prod.fst hap
                                              rw [apply_processing_fst] at h2
                                              exact h2.symm
                                            have ext8 : traceExt st st8 :=
                                              traceExt_trans ext7
                                                ⟨[Effect.applyProcessing processing.id],
                                                  by rw [e8]⟩
                                            cases r8 with
                                            | error e =>
                                              injection h with h1 h2
                                              subst h1
                                              subst h2
                                              exact ⟨ext8, fun res hres => by simp at hres⟩
                                            | ok applied_processing =>
                                              dsimp only at h
                                              injection h with h1 h2
                                              subst h1
                                              subst h2
                                              refine ⟨ext8, fun res hres => ?_⟩
                                              injection hres with h9
                                              subst h9
                                              obtain ⟨t6, ht6⟩ := ext6
                                              have hdrop : st8.trace.drop st.trace.length =
                                                  t6 ++ [Effect.createProcessing,
                                                    Effect.applyProcessing processing.id] := by
                                                rw [e8]
                                                dsimp only
                                                rw [e7]
                                                dsimp only
                                                rw [ht6]
                                                simp [List.append_assoc, List.drop_left]
                                              refine ⟨rfl, rfl, fun _ => ⟨rfl, ?_, ?_⟩⟩
                                              · rw [hdrop]
                                                simp
                                              · exact ⟨processing.id, by rw [hdrop]; simp⟩

/-- Companion of `positionsSpecFold` that also records, for each line, the
trace delta of that line's own `process_position` run: the effects the line
itself issued, computed canonically as `st1.trace.drop st.trace.length` where
`st` is the state the line started from and `st1` the state it produced. -/
def positionsFoldDeltas (b : Backend) (settings : Settings) (demand : Demand) :
    List DemandPosition → PState → PState × List (ProcessingResult × List Effect)
  | [], st => (st, [])
  | p :: rest, st =>
    match process_position b settings demand p st with
    | (st1, Except.ok r) =>
      let s2 := positionsFoldDeltas b settings demand rest st1
      (s2.1, (r, st1.trace.drop st.trace.length) :: s2.2)
    | (st1, Except.error e) =>
      let s2 := positionsFoldDeltas b settings demand rest st1
      (s2.1, (lineErrorResult demand p e, st1.trace.drop st.trace.length) :: s2.2)

theorem positionsFoldDeltas_spec (b : Backend) (settings : Settings) (demand : Demand) :
    ∀ (ps : List DemandPosition) (st : PState),
    (positionsFoldDeltas b settings demand ps st).1 =
      (positionsSpecFold b settings demand ps st).1 ∧
    (positionsFoldDeltas b settings demand ps st).2.map Prod.fst =
      (positionsSpecFold b settings demand ps st).2 := by
  intro ps
  induction ps with
  | nil => intro st; exact ⟨rfl, rfl⟩
  | cons p rest ih =>
    intro st
    rw [positionsFoldDeltas, positionsSpecFold]
    cases hpp : process_position b settings demand p st with
    | mk st1 r =>
      cases r with
      | ok result =>
        dsimp only
        exact ⟨(ih st1).1, by simp [(ih st1).2]⟩
      | error e =>
        dsimp only
        exact ⟨(ih st1).1, by simp [(ih st1).2]⟩

theorem positionsFoldDeltas_inv (b : Backend) (settings : Settings) (demand : Demand) :
    ∀ (ps : List DemandPosition) (st : PState) (pr : ProcessingResult × List Effect),
    pr ∈ (positionsFoldDeltas b settings demand ps st).2 →
    pr.1.error.isSome = !pr.1.success ∧
    pr.1.processing_id.isSome = pr.1.processing_name.isSome ∧
    (pr.1.processing_id.isSome = true →
      pr.1.success = true ∧ Effect.createProcessing ∈ pr.2 ∧
      ∃ pid, Effect.applyProcessing pid ∈ pr.2) := by
  intro ps
  induction ps with
  | nil => intro st pr hpr; simp [positionsFoldDeltas] at hpr
  | cons p rest ih =>
    intro st pr hpr
    rw [positionsFoldDeltas] at hpr
    cases hpp : process_position b settings demand p st with
    | mk st1 r =>
      rw [hpp] at hpr
      have hline := process_position_inv b settings demand p st st1 r hpp
      cases r with
      | ok result =>
        dsimp only at hpr
        rcases List.mem_cons.mp hpr with heq | htail
        · subst heq
          exact hline.2 result rfl
        · exact ih st1 pr htail
      | error e =>
        dsimp only at hpr
        rcases List.mem_cons.mp hpr with heq | htail
        · subst heq
          refine ⟨rfl, rfl, fun hp => ?_⟩
          simp [lineErrorResult] at hp
        · exact ih st1 pr htail

/-- C9: every `ProcessingResult` produced by a successful `process_webhook` run
satisfies: the error field is populated iff success is false; the two
transaction identity fields are populated together; and they are populated
only in a success result. Moreover either the run took a whole-document path
and every result has both transaction identity fields absent, or the results
are exactly, in order, the per-line results of `positionsFoldDeltas` — which
pairs each line's result with the trace delta of that line's own run — and a
result carries a transaction id only when **its own line's** delta contains
both the transaction-creation call and the confirmation call. In particular
skip, soft-failure and converted-error results carry no transaction identity:
their lines issue no creation call, so their own deltas never contain it. -/
theorem C9_result_invariant (b : Backend) (settings : Settings) (event : WebhookEvent)
    (st st' : PState) (results : List ProcessingResult)
    (h : process_webhook b settings event st = (st', Except.ok results)) :
    (∀ res ∈ results,
      res.error.isSome = !res.success ∧
      res.processing_id.isSome = res.processing_name.isSome ∧
      (res.processing_id.isSome = true → res.success = true)) ∧
    ((∀ res ∈ results, res.processing_id = none ∧ res.processing_name = none) ∨
     ∃ demand P st2,
       demand.positions = some P ∧
       process_demand_positions b settings demand st2 = (st', Except.ok results) ∧
       results = (positionsFoldDeltas b settings demand P.rows st2).2.map Prod.fst ∧
       ∀ pr ∈ (positionsFoldDeltas b settings demand P.rows st2).2,
         pr.1.processing_id.isSome = true →
           pr.1.success = true ∧ Effect.createProcessing ∈ pr.2 ∧
           ∃ pid, Effect.applyProcessing pid ∈ pr.2) := by
  rw [process_webhook] at h
  by_cases ht : event.entity_type ≠ "demand"
  · rw [if_pos ht] at h
    injection h with h1 h2
    injection h2 with h3
    subst h3
    exact ⟨fun res hres => by simp at hres, Or.inl (fun res hres => by simp at hres)⟩
  · rw [if_neg ht] at h
    cases hrd : resolve_demand b event st with
    | mk st1 r1 =>
      rw [hrd] at h
      cases r1 with
      | error e =>
        injection h with h1 h2
        simp at h2
      | ok demand =>
        dsimp only at h
        cases happ : demand.applicable with
        | false =>
          rw [happ] at h
          rw [if_pos (show (!false) = true from rfl)] at h
          injection h with h1 h2
          subst h1
          injection h2 with h3
          subst h3
          refine ⟨?_, Or.inl ?_⟩
          · intro res hres
            have hr : res = notApplicableResult demand := by simpa using hres
            subst hr
            exact ⟨rfl, rfl, fun hp => by simp [notApplicableResult] at hp⟩
          · intro res hres
            have hr : res = notApplicableResult demand := by simpa using hres
            subst hr
            exact ⟨rfl, rfl⟩
        | true =>
          rw [happ] at h
          rw [if_neg (show ¬ (!true) = true by simp)] at h
          cases hgs : get_store b settings st1 with
          | mk st2 r2 =>
            rw [hgs] at h
            cases r2 with
            | error e =>
              injection h with h1 h2
              simp at h2
            | ok store =>
              dsimp only at h
              cases hds : demand.store.id with
              | none =>
                rw [hds] at h
                injection h with h1 h2
                simp at h2
              | some dsid =>
                rw [hds] at h
                dsimp only at h
                cases hcs : store.id with
                | none =>
                  rw [hcs] at h
                  injection h with h1 h2
                  simp at h2
                | some csid =>
                  rw [hcs] at h
                  dsimp only at h
                  by_cases hne : dsid ≠ csid
                  · rw [if_pos hne] at h
                    injection h with h1 h2
                    subst h1
                    injection h2 with h3
                    subst h3
                    refine ⟨?_, Or.inl ?_⟩
                    · intro res hres
                      have hr : res = otherStoreResult demand := by simpa using hres
                      subst hr
                      exact ⟨rfl, rfl, fun hp => by simp [otherStoreResult] at hp⟩
                    · intro res hres
                      have hr : res = otherStoreResult demand := by simpa using hres
                      subst hr
                      exact ⟨rfl, rfl⟩
                  · rw [if_neg hne] at h
                    rw [process_demand_positions] at h
                    cases hposns : demand.positions with
                    | none =>
                      rw [hposns] at h
                      injection h with h1 h2
                      injection h2 with h3
                      subst h3
                      exact ⟨fun res hres => by simp at hres,
                        Or.inl (fun res hres => by simp at hres)⟩
                    | some P =>
                      rw [hposns] at h
                      dsimp only at h
                      have hs := positions_loop_eq_specFold b settings demand P.rows [] st2
                      rw [hs] at h
                      injection h with h1 h2
                      injection h2 with h3
                      have hresults : results =
                          (positionsSpecFold b settings demand P.rows st2).2 := by
                        rw [← h3]
                        simp
                      have hmap := (positionsFoldDeltas_spec b settings demand P.rows st2).2
                      have hresmap : results =
                          (positionsFoldDeltas b settings demand P.rows st2).2.map Prod.fst :=
                        hresults.trans hmap.symm
                      refine ⟨?_, Or.inr ⟨demand, P, st2, hposns, ?_, hresmap, ?_⟩⟩
                      · intro res hres
                        rw [hresmap] at hres
                        obtain ⟨pr, hpr, hfst⟩ := List.mem_map.mp hres
                        subst hfst
                        have hinv := positionsFoldDeltas_inv b settings demand P.rows st2 pr hpr
                        exact ⟨hinv.1, hinv.2.1, fun hp => (hinv.2.2 hp).1⟩
                      · rw [process_demand_positions, hposns]
                        dsimp only
                        rw [hs]
                        rw [h1, ← h3]
                      · intro pr hpr
                        exact (positionsFoldDeltas_inv b settings demand P.rows st2 pr hpr).2.2

/-- Witness for C9 on a concrete run producing one (skip) result: the theorem
applies, the field invariants hold and the skip result carries no transaction
identity. -/
theorem C9_result_invariant_witness :
    process_webhook bNone settingsW eventC4 st0 =
      (st0, Except.ok [notApplicableResult demandC4]) ∧
    ((notApplicableResult demandC4).error.isSome = !(notApplicableResult demandC4).success) ∧
    (notApplicableResult demandC4).processing_id.isSome =
      (notApplicableResult demandC4).processing_name.isSome := by
  have h := C9_result_invariant bNone settingsW eventC4 st0 st0
    [notApplicableResult demandC4] rfl
  have h2 := h.1 (notApplicableResult demandC4) (by simp)
  exact ⟨rfl, h2.1, h2.2.1⟩

theorem create_not_mem_materialStockEffects (sid : String)
    (ms : List ProcessingPlanMaterial) :
    Effect.createProcessing ∉ materialStockEffects sid ms := by
  simp [materialStockEffects]

/-- C1: for a line whose per-line processing completes without a propagated
error, a processing transaction is created and the returned result carries a
transaction id **iff** the observed available stock is strictly below the
configured minimum threshold, the product's configured BOM-name attribute
yields a non-empty name, that name resolves to an existing processing plan
(the last element of the search response), and the availability check reports
no material shortfall. The second conjunct states the trace side: the new
effects contain the transaction-creation call exactly when the result carries
a transaction id. -/
theorem C1_transaction_iff (b : Backend) (settings : Settings) (demand : Demand)
    (position : DemandPosition) (st st' : PState) (res : ProcessingResult)
    (store : EntityRef) (sid pid : String) (rowsOpt : Option (List StockByStoreRow))
    (prod : Product) (planRowsOpt : Option (List ProcessingPlan))
    (hcache : st.storeCache = some store)
    (hsid : store.id = some sid)
    (hpid : rsplitNext position.assortment.meta.href = some pid)
    (hstk : b.stockResp = Except.ok rowsOpt)
    (hprod : b.getProductResp pid = Except.ok prod)
    (hfp : b.findPlanResp (find_tech_card_name settings prod) = Except.ok planRowsOpt)
    (hrun : process_position b settings demand position st = (st', Except.ok res)) :
    (res.processing_id.isSome = true ↔
      (stockScan rowsOpt pid sid < settings.min_stock_threshold ∧
       find_tech_card_name settings prod ≠ "" ∧
       ∃ plan, Option.bind planRowsOpt List.getLast? = some plan ∧
         claimShortfalls rowsOpt sid position.quantity (planMaterials plan) = [])) ∧
    (∃ t, st'.trace = st.trace ++ t ∧
      (Effect.createProcessing ∈ t ↔ res.processing_id.isSome = true)) := by
  rw [process_position, hpid] at hrun
  dsimp only at hrun
  rw [get_store, hcache] at hrun
  dsimp only at hrun
  rw [hsid] at hrun
  dsimp only at hrun
  rw [get_product_stock_eq b st pid sid rowsOpt hstk] at hrun
  dsimp only at hrun
  by_cases hge : stockScan rowsOpt pid sid ≥ settings.min_stock_threshold
  · rw [if_pos hge] at hrun
    injection hrun with h1 h2
    subst h1
    injection h2 with h3
    subst h3
    constructor
    · simp only [Option.isSome_none, Bool.false_eq_true, false_iff]
      rintro ⟨hlt, -⟩
      exact absurd hlt (not_lt.mpr hge)
    · exact ⟨[Effect.getStock pid sid], rfl, by simp⟩
  · rw [if_neg hge] at hrun
    have hlt : stockScan rowsOpt pid sid < settings.min_stock_threshold := lt_of_not_ge hge
    rw [get_product] at hrun
    dsimp only at hrun
    rw [hprod] at hrun
    dsimp only at hrun
    by_cases hemp : (find_tech_card_name settings prod).isEmpty = true
    · rw [if_pos hemp] at hrun
      injection hrun with h1 h2
      subst h1
      injection h2 with h3
      subst h3
      constructor
      · simp only [Option.isSome_none, Bool.false_eq_true, false_iff]
        rintro ⟨-, hne, -⟩
        exact hne ((String.isEmpty_iff _).mp hemp)
      · refine ⟨[Effect.getStock pid sid, Effect.getProduct pid], by simp, by simp⟩
    · rw [if_neg hemp] at hrun
      have hne : find_tech_card_name settings prod ≠ "" := by
        intro hcon
        exact hemp ((String.isEmpty_iff _).mpr hcon)
      rw [find_processing_plan_by_name] at hrun
      dsimp only at hrun
      rw [hfp] at hrun
      dsimp only at hrun
      cases hplan : Option.bind planRowsOpt List.getLast? with
      | none =>
        rw [hplan] at hrun
        dsimp only at hrun
        injection hrun with h1 h2
        simp at h2
      | some plan =>
        rw [hplan] at hrun
        dsimp only at hrun
        rw [check_materials_eq b plan position.quantity sid _ rowsOpt hstk,
          codeShortfalls_eq_claim rowsOpt sid position.quantity] at hrun
        dsimp only at hrun
        by_cases hL : (claimShortfalls rowsOpt sid position.quantity
            (planMaterials plan)).isEmpty = true
        · rw [hL] at hrun
          rw [if_neg (show ¬ (!true) = true by simp)] at hrun
          cases hgo : get_organization b
              { st with trace := (((st.trace ++ [Effect.getStock pid sid]) ++
                  [Effect.getProduct pid]) ++
                  [Effect.findPlan (find_tech_card_name settings prod)]) ++
                  materialStockEffects sid (planMaterials plan) } with
          | mk st6 r6 =>
            rw [hgo] at hrun
            cases r6 with
            | error e =>
              injection hrun with h1 h2
              simp at h2
            | ok organization =>
              dsimp only at hrun
              cases hco : create_processing_operation b st6 plan store organization
                  position.quantity demand (position.assortment.name.getD "unknown") with
              | mk st7 r7 =>
                rw [hco] at hrun
                cases r7 with
                | error e =>
                  injection hrun with h1 h2
                  simp at h2
                | ok processing =>
                  dsimp only at hrun
                  cases hap : apply_processing b st7 processing.id with
                  | mk st8 r8 =>
                    rw [hap] at hrun
                    cases r8 with
                    | error e =>
                      injection hrun with h1 h2
                      simp at h2
                    | ok applied_processing =>
                      dsimp only at hrun
                      injection hrun with h1 h2
                      subst h1
                      injection h2 with h3
                      subst h3
                      have e7 : st7 = { st6 with trace :=
                          st6.trace ++ [Effect.createProcessing] } := by
                        have h4 := congrArg Prod.fst hco
                        rw [create_processing_operation_fst] at h4
                        exact h4.symm
                      have e8 : st8 = { st7 with trace :=
                          st7.trace ++ [Effect.applyProcessing processing.id] } := by
                        have h4 := congrArg Prod.fst hap
                        rw [apply_processing_fst] at h4
                        exact h4.symm
                      obtain ⟨t6, ht6⟩ := get_organization_traceExt b _ st6 _ hgo
                      constructor
                      · simp only [Option.isSome_some, true_iff]
                        exact ⟨hlt, hne, plan, rfl, List.isEmpty_eq_true.mp hL⟩
                      · refine ⟨[Effect.getStock pid sid, Effect.getProduct pid,
                          Effect.findPlan (find_tech_card_name settings prod)] ++
                          materialStockEffects sid (planMaterials plan) ++ t6 ++
                          [Effect.createProcessing,
                            Effect.applyProcessing processing.id], ?_, by simp⟩
                        rw [e8, e7]
                        dsimp only
                        rw [ht6]
                        dsimp only
                        simp [List.append_assoc]
        · have hL2 : (claimShortfalls rowsOpt sid position.quantity
              (planMaterials plan)).isEmpty = false := by
            cases h5 : (claimShortfalls rowsOpt sid position.quantity
                (planMaterials plan)).isEmpty with
            | false => rfl
            | true => exact absurd h5 hL
          rw [hL2] at hrun
          rw [if_pos (show (!false) = true from rfl)] at hrun
          injection hrun with h1 h2
          subst h1
          injection h2 with h3
          subst h3
          constructor
          · simp only [Option.isSome_none, Bool.false_eq_true, false_iff]
            rintro ⟨-, -, plan2, hplan2, hL3⟩
            have hp2 : plan2 = plan := (Option.some.inj hplan2).symm
            subst hp2
            rw [hL3] at hL2
            simp at hL2
          · refine ⟨[Effect.getStock pid sid, Effect.getProduct pid,
              Effect.findPlan (find_tech_card_name settings prod)] ++
              materialStockEffects sid (planMaterials plan), ?_, ?_⟩
            · dsimp only
              simp [List.append_assoc]
            · simp only [Option.isSome_none, Bool.false_eq_true, iff_false]
              intro hmem
              rcases List.mem_append.mp hmem with hml | hmr
              · simp at hml
              · exact create_not_mem_materialStockEffects sid _ hmr

/-- A plan named "TC1" with no materials (trivially available). -/
def planTC : ProcessingPlan :=
  { meta := { href := "planhref" }, id := "plan1", name := "TC1", materials := none }

/-- The processing operation returned by the backend on create and confirm. -/
def procCreated : Processing := { id := "proc1", name := "P1" }

/-- A backend on which the whole creation path succeeds: stock 0, BOM name
"TC1" resolving to `planTC`, organization `eA`, create and confirm both ok. -/
def bC1 : Backend :=
  { findStoreResp := fun _ => Except.error "unused"
    stockResp := Except.ok (some [])
    getProductResp := fun _ => Except.ok prodWithTC
    findPlanResp := fun _ => Except.ok (some [planTC])
    getOrgResp := Except.ok (some [eA])
    createResp := fun _ => Except.ok procCreated
    applyResp := fun _ => Except.ok procCreated
    getDemandResp := fun _ => Except.error "unused" }

/-- Final state of the C1 witness run. -/
def stC1F : PState :=
  { storeCache := some storeS1
    organizationCache := some eA
    trace := [Effect.getStock "p" "s1", Effect.getProduct "p", Effect.findPlan "TC1",
      Effect.getOrganization, Effect.createProcessing, Effect.applyProcessing "proc1"] }

/-- Result of the C1 witness run: a created-and-confirmed transaction. -/
def resC1F : ProcessingResult :=
  { success := true
    message := "Создана тех. операция для производства "
      ++ toString positionP.quantity ++ " шт. " ++ "Prod"
    demand_id := some "d1"
    demand_name := some "D1"
    processing_id := some "proc1"
    processing_name := some "P1"
    product := some ⟨"p", "Prod", positionP.quantity, 0⟩
    error := none }

/-- Witness for C1: on the all-succeeding backend the conditions of the iff
hold and the run carries the transaction id `proc1`. -/
theorem C1_transaction_iff_witness :
    process_position bC1 settingsW demandC10 positionP stC10 =
      (stC1F, Except.ok resC1F) ∧
    stockScan (some []) "p" "s1" < settingsW.min_stock_threshold ∧
    find_tech_card_name settingsW prodWithTC ≠ "" ∧
    Option.bind (some [planTC]) List.getLast? = some planTC ∧
    claimShortfalls (some []) "s1" positionP.quantity (planMaterials planTC) = [] ∧
    resC1F.processing_id.isSome = true := by
  have hrun : process_position bC1 settingsW demandC10 positionP stC10 =
      (stC1F, Except.ok resC1F) := rfl
  have hlt : stockScan (some []) "p" "s1" < settingsW.min_stock_threshold := by
    show stockScanRows "p" "s1" [] < settingsW.min_stock_threshold
    rw [stockScanRows]
    norm_num [settingsW]
  have hne : find_tech_card_name settingsW prodWithTC ≠ "" := by decide
  have h := C1_transaction_iff bC1 settingsW demandC10 positionP stC10 stC1F resC1F
    storeS1 "s1" "p" (some []) prodWithTC (some [planTC])
    rfl rfl rfl rfl rfl rfl hrun
  exact ⟨hrun, hlt, hne, rfl, rfl, h.1.mpr ⟨hlt, hne, planTC, rfl, rfl⟩⟩

end MS
